import Mathlib

/-!
# gosandbox (ops/mountineer/mntnssandbox/gomntns.c)

A shallow embedding of the C initializer `gosandbox` and proofs about the
system calls it performs, the bytes it writes and the way it ends.

The routine talks to the outside only through `getenv`, `open`, the raw
`setns` system call, `close`, `dprintf`, `strerror`, `exit` and `pause`.
All of them are supplied by a `World`; every call is recorded in a trace.
-/

namespace Gomntns

/-! ## Constants -/

/-- Name of the mount reference variable: `#define MNT_ENVVAR "sleepy_mntns"` (line 38). -/
def MNT_ENVVAR : String := "sleepy_mntns"

/-- Name of the user reference variable: `#define USER_ENVVAR "sleepy_userns"` (line 39). -/
def USER_ENVVAR : String := "sleepy_userns"

/-- Value of `O_RDONLY` in the Linux `<fcntl.h>`. -/
def O_RDONLY : Nat := 0

/-- Value of `CLONE_NEWNS` in the Linux `<sched.h>`. -/
def CLONE_NEWNS : Nat := 0x00020000

/-- Value of `CLONE_NEWUSER` in the Linux `<sched.h>`. -/
def CLONE_NEWUSER : Nat := 0x10000000

/-- Value of `STDOUT_FILENO` in `<unistd.h>`. -/
def STDOUT_FILENO : Nat := 1

/-- Value of `STDERR_FILENO` in `<unistd.h>`. -/
def STDERR_FILENO : Nat := 2

/-- Value of `EINTR` in the Linux `<errno.h>`: what `pause` leaves in `errno`
when a signal handler returned. -/
def EINTR : Nat := 4

/-! ## Data model -/

/-- Which of the two reference variables of `gosandbox` a path comes from:
`usernsref` (line 52) or `mntnsref` (line 83). -/
inductive NsRef where
  | user
  | mnt
  deriving DecidableEq, Repr

/-- One library or system call made by the routine, with its arguments and,
where the routine looks at it, its return value. An `open` also records which
reference variable was passed as the path. -/
inductive Event where
  | open (ref : NsRef) (path : String) (flags : Nat) (ret : Int)
  | setns (fd : Int) (nstype : Nat) (ret : Int)
  | close (fd : Int) (ret : Int)
  | dprintf (fd : Nat) (text : String)
  | exit (status : Int)
  | pause
  deriving DecidableEq, Repr

/-- How an observation of the routine ends: it returned to its caller, it
ended the process through `exit`, or it sits in the `for (;;) pause();` loop. -/
inductive Outcome where
  | Returned
  | Exited (code : Int)
  | Parked
  deriving DecidableEq, Repr

/-- What the kernel answers to one `open`, `setns` or `close`: success with a
non-negative value, or failure with an error number. -/
inductive SysRet where
  | ok (value : Nat)
  | fail (errno : Nat)
  deriving DecidableEq, Repr

/-- The C return value: the value on success, `-1` on failure. -/
def SysRet.ret : SysRet → Int
  | .ok v => (v : Int)
  | .fail _ => -1

/-- The value of `errno` after the call: a failing call overwrites it, a
successful call leaves it alone. -/
def SysRet.errnoAfter : SysRet → Nat → Nat
  | .ok _, old => old
  | .fail e, _ => e

/-- Everything outside the routine. `getenv` is the process environment
(`none` is the NULL pointer), `sys k` is the kernel's answer to the `k`-th of
the `open`/`setns`/`close` calls the routine makes (counted from 0), `errno0`
is `errno` on entry, `strerror` is the C library's table of error texts and
`wakeups` is the number of times a `pause` call returns (interrupted by a
signal whose handler returned) during the observation. -/
structure World where
  getenv : String → Option String
  sys : Nat → SysRet
  errno0 : Nat
  strerror : Nat → String
  wakeups : Nat

/-- The state threaded through the routine: `errno`, the number of
`open`/`setns`/`close` calls made so far, and the trace of calls so far. -/
structure Proc where
  errno : Nat
  nsys : Nat
  trace : List Event
  deriving DecidableEq, Repr

/-- What an observer sees of one run. -/
structure Result where
  outcome : Outcome
  trace : List Event
  errno : Nat
  deriving DecidableEq, Repr

/-! ## The routine -/

/-- Result of running a piece of the routine: either control goes on with a
value, or the routine is over with an outcome. -/
inductive Step (α : Type) where
  | next (a : α) (p : Proc)
  | stop (o : Outcome) (p : Proc)

/-- A piece of the routine: a state transformer that may end the routine. -/
def Run (α : Type) : Type := Proc → Step α

/-- Sequencing of pieces of the routine. -/
def Run.bind {α β : Type} (m : Run α) (f : α → Run β) : Run β := fun p =>
  match m p with
  | .next a q => f a q
  | .stop o q => .stop o q

instance : Monad Run where
  pure a := fun p => .next a p
  bind := Run.bind

/-- Append a call to the trace. -/
def Proc.emit (p : Proc) (e : Event) : Proc :=
  { p with trace := p.trace ++ [e] }

/-- An `open`, `setns` or `close`: take the kernel's next answer, record the
call with its return value, update `errno`, hand the return value back. -/
def sysCall (w : World) (mk : Int → Event) : Run Int := fun p =>
  let r := w.sys p.nsys
  .next r.ret { errno := r.errnoAfter p.errno, nsys := p.nsys + 1,
                trace := p.trace ++ [mk r.ret] }

/-- The call `open(path, flags)`; `ref` names the variable the path comes from. -/
def c_open (w : World) (ref : NsRef) (path : String) (flags : Nat) : Run Int :=
  sysCall w (Event.open ref path flags)

/-- The call `syscall(SYS_setns, fd, nstype)`. -/
def c_setns (w : World) (fd : Int) (nstype : Nat) : Run Int :=
  sysCall w (Event.setns fd nstype)

/-- The call `close(fd)`. -/
def c_close (w : World) (fd : Int) : Run Int :=
  sysCall w (Event.close fd)

/-- The expression `strerror(errno)`: read `errno` now and look its text up. -/
def c_strerror_errno (w : World) : Run String := fun p =>
  .next (w.strerror p.errno) p

/-- The call `dprintf(fd, ...)`, given the formatted text. -/
def c_dprintf (fd : Nat) (text : String) : Run Unit := fun p =>
  .next () (p.emit (Event.dprintf fd text))

/-- The call `exit(status)`: the process ends. -/
def c_exit {α : Type} (status : Int) : Run α := fun p =>
  .stop (Outcome.Exited status) (p.emit (Event.exit status))

/-- The statement `return;` of `gosandbox`. -/
def c_return {α : Type} : Run α := fun p =>
  .stop Outcome.Returned p

/-- The loop `for (;;) { pause(); }` (lines 105-107). Each `pause` that
returns leaves `EINTR` in `errno` and the loop calls `pause` again; after `n`
returns the routine is suspended in its `n+1`-st `pause`. -/
def pauseLoop {α : Type} : Nat → Run α
  | 0 => fun p => .stop Outcome.Parked (p.emit Event.pause)
  | n + 1 => fun p => pauseLoop n { p.emit Event.pause with errno := EINTR }

/-- The routine `gosandbox` (lines 50-108). -/
def gosandbox (w : World) : Run Unit := do
  -- Do we need to switch the user namespace first?
  match w.getenv USER_ENVVAR with
  | none => pure ()
  | some usernsref =>
    if usernsref ≠ "" then do
      let usernsfd ← c_open w NsRef.user usernsref O_RDONLY
      if usernsfd < 0 then do
        let msg ← c_strerror_errno w
        c_dprintf STDERR_FILENO
          ("package mntnssandbox: invalid user namespace reference \""
            ++ usernsref ++ "\": " ++ msg ++ "\n")
        c_exit 66
      let res ← c_setns w usernsfd CLONE_NEWUSER
      let _ ← c_close w usernsfd
      if res < 0 then do
        let msg ← c_strerror_errno w
        c_dprintf STDERR_FILENO
          ("package gons: cannot join user namespace using reference \""
            ++ usernsref ++ "\": " ++ msg ++ "\n")
        c_exit 66
  -- And now let's switch the mount namespace.
  match w.getenv MNT_ENVVAR with
  | none => c_return
  | some mntnsref =>
    if mntnsref = "" then
      c_return
    -- Try to reference the specified mount namespace and then switch.
    let mntnsfd ← c_open w NsRef.mnt mntnsref O_RDONLY
    if mntnsfd < 0 then do
      let msg ← c_strerror_errno w
      c_dprintf STDERR_FILENO
        ("package mntnssandbox: invalid mount namespace reference \""
          ++ mntnsref ++ "\": " ++ msg ++ "\n")
      c_exit 66
    let res ← c_setns w mntnsfd CLONE_NEWNS
    let _ ← c_close w mntnsfd
    if res < 0 then do
      let msg ← c_strerror_errno w
      c_dprintf STDERR_FILENO
        ("package gons: cannot join mount namespace using reference \""
          ++ mntnsref ++ "\": " ++ msg ++ "\n")
      c_exit 66
    -- Work done. Sleep.
    c_dprintf STDOUT_FILENO "OK\n"
    pauseLoop w.wakeups

/-- What is seen once a piece of the routine is over. Falling off the end of
a `void` function is a return. -/
def Step.result {α : Type} : Step α → Result
  | .next _ p => { outcome := Outcome.Returned, trace := p.trace, errno := p.errno }
  | .stop o p => { outcome := o, trace := p.trace, errno := p.errno }

/-- Run `gosandbox` from process start: `errno` as the world gives it, no
call made yet. -/
def exec (w : World) : Result :=
  (gosandbox w { errno := w.errno0, nsys := 0, trace := [] }).result

/-! ## Observations on a trace -/

/-- The texts written to descriptor `fd`, one per `dprintf`, in order. -/
def writes (fd : Nat) (t : List Event) : List String :=
  t.filterMap fun e =>
    match e with
    | .dprintf fd' text => if fd' = fd then some text else none
    | _ => none

/-- The bytes descriptor `fd` received. -/
def output (fd : Nat) (t : List Event) : String :=
  String.join (writes fd t)

/-- The call is an `open`. -/
def Event.isOpen : Event → Bool
  | .open _ _ _ _ => true
  | _ => false

/-- The call is a `setns`. -/
def Event.isSetns : Event → Bool
  | .setns _ _ _ => true
  | _ => false

/-- The call is a `close`. -/
def Event.isClose : Event → Bool
  | .close _ _ => true
  | _ => false

/-- The call is an `exit`. -/
def Event.isExit : Event → Bool
  | .exit _ => true
  | _ => false

/-- The call is a `pause`. -/
def Event.isPause : Event → Bool
  | .pause => true
  | _ => false

/-- The call is an `open` or a `setns` that failed (returned a negative
value). -/
def Event.failed : Event → Bool
  | .open _ _ _ ret => decide (ret < 0)
  | .setns _ _ ret => decide (ret < 0)
  | _ => false

/-- The call is a `setns` that succeeded: a namespace switch took place. -/
def Event.switched : Event → Bool
  | .setns _ _ ret => decide (0 ≤ ret)
  | _ => false

/-- The namespace kind a call belongs to: an `open` belongs to the kind of the
reference it opens, a `setns` to the kind named by its `nstype`. -/
def Event.kind : Event → Option NsRef
  | .open ref _ _ _ => some ref
  | .setns _ nstype _ =>
    if nstype = CLONE_NEWUSER then some NsRef.user
    else if nstype = CLONE_NEWNS then some NsRef.mnt
    else none
  | _ => none

/-- The call is a `setns` with the given `nstype`. -/
def Event.isSetnsOf (nstype : Nat) : Event → Bool
  | .setns _ ty _ => ty == nstype
  | _ => false

/-- The call is an `open` of the given reference. -/
def Event.isOpenOf (ref : NsRef) : Event → Bool
  | .open r _ _ _ => r == ref
  | _ => false

/-- The value of the reference of a kind in the environment. -/
def World.reference (w : World) : NsRef → Option String
  | .user => w.getenv USER_ENVVAR
  | .mnt => w.getenv MNT_ENVVAR

/-- One step of descriptor bookkeeping: a successful `open` adds the
descriptor it returned, a `close` call releases its descriptor (on Linux the
descriptor is gone after `close` also when `close` reports an error). -/
def fdStep (fds : List Int) : Event → List Int
  | .open _ _ _ ret => if ret < 0 then fds else ret :: fds
  | .close fd _ => fds.erase fd
  | _ => fds

/-- The descriptors opened by the routine and not yet closed, after the calls
of `t`. -/
def openFds (t : List Event) : List Int :=
  t.foldl fdStep []

/-! ## The tail of the routine as a machine -/

/-- Where control is in lines 104-107 of `gosandbox`, or how the routine
ended: `atMarker` is before the `dprintf` of line 104, `atLoop` is at the top
of the body of `for (;;)`, about to call `pause`, `inPause` is suspended
inside `pause`. -/
inductive Ctl where
  | atMarker
  | atLoop
  | inPause
  | returned
  | exited (code : Int)
  deriving DecidableEq, Repr

/-- A control point with the state of the process. -/
structure Config where
  ctl : Ctl
  proc : Proc
  deriving DecidableEq, Repr

/-- One step of lines 104-107: write the marker and enter the loop; call
`pause`; `pause` returns (a signal handler ran), `errno` is `EINTR` and the
loop goes round. The loop has no way out, and a routine that returned or
exited makes no step. -/
def tailStep : Config → Option Config
  | ⟨.atMarker, p⟩ => some ⟨.atLoop, p.emit (Event.dprintf STDOUT_FILENO "OK\n")⟩
  | ⟨.atLoop, p⟩ => some ⟨.inPause, p.emit Event.pause⟩
  | ⟨.inPause, p⟩ => some ⟨.atLoop, { p with errno := EINTR }⟩
  | ⟨.returned, _⟩ => none
  | ⟨.exited _, _⟩ => none

/-- The step relation of the tail. -/
def TailStep (c d : Config) : Prop := tailStep c = some d

/-- The parked state: in the loop, at its top or inside `pause`. -/
def Config.parked (c : Config) : Prop := c.ctl = Ctl.atLoop ∨ c.ctl = Ctl.inPause

/-- Run the tail for `n` steps (or until no step is possible). -/
def tailRun : Nat → Config → Config
  | 0, c => c
  | n + 1, c =>
    match tailStep c with
    | some d => tailRun n d
    | none => c

/-! ## Predicates of the statements -/

/-- The same world observed while `pause` returns `n` times. -/
def World.withWakeups (w : World) (n : Nat) : World :=
  { w with wakeups := n }

/-- A reference is requested when the variable is set to a non-empty string
(`ref && *ref`). -/
def requested (o : Option String) (s : String) : Prop := o = some s ∧ s ≠ ""

/-- A reference is not requested when the variable is unset or empty. -/
def notRequested (o : Option String) : Prop := o = none ∨ o = some ""

/-- The user step let control through to the mount step: the user reference
is not requested, or it is requested and the trace holds its successful `open`
and a successful `setns(CLONE_NEWUSER)` on the descriptor that `open` gave. -/
def userStepPassed (w : World) (t : List Event) : Prop :=
  notRequested (w.getenv USER_ENVVAR) ∨
  ∃ u fd r, requested (w.getenv USER_ENVVAR) u ∧ 0 ≤ fd ∧ 0 ≤ r ∧
    Event.open NsRef.user u O_RDONLY fd ∈ t ∧ Event.setns fd CLONE_NEWUSER r ∈ t

/-- The mount switch took place: the mount reference is requested and the
trace holds its successful `open` and a successful `setns(CLONE_NEWNS)` on the
descriptor that `open` gave. -/
def mntJoined (w : World) (t : List Event) : Prop :=
  ∃ m fd r, requested (w.getenv MNT_ENVVAR) m ∧ 0 ≤ fd ∧ 0 ≤ r ∧
    Event.open NsRef.mnt m O_RDONLY fd ∈ t ∧ Event.setns fd CLONE_NEWNS r ∈ t

/-! ## The ways through the routine -/

/-- What the user-namespace step (lines 52-81) leaves behind when control
goes on to the mount step: the calls made, how many kernel answers were used,
and `errno`. -/
inductive UserPhase (w : World) : List Event → Nat → Nat → Prop where
  | skipped (hu : notRequested (w.getenv USER_ENVVAR)) :
      UserPhase w [] 0 w.errno0
  | joined (u : String) (hu : requested (w.getenv USER_ENVVAR) u) (fd v : Nat)
      (h0 : w.sys 0 = SysRet.ok fd) (h1 : w.sys 1 = SysRet.ok v) :
      UserPhase w
        [Event.open NsRef.user u O_RDONLY fd, Event.setns fd CLONE_NEWUSER v,
          Event.close fd (w.sys 2).ret]
        3 ((w.sys 2).errnoAfter w.errno0)

/-- The ten ways through `gosandbox`, each with the result it produces. -/
inductive Shape (w : World) : Result → Prop where
  | userOpenFail (u : String) (hu : requested (w.getenv USER_ENVVAR) u) (e : Nat)
      (h0 : w.sys 0 = SysRet.fail e) :
      Shape w
        { outcome := Outcome.Exited 66
          trace := [Event.open NsRef.user u O_RDONLY (-1),
            Event.dprintf STDERR_FILENO
              ("package mntnssandbox: invalid user namespace reference \""
                ++ u ++ "\": " ++ w.strerror e ++ "\n"),
            Event.exit 66]
          errno := e }
  | userSetnsFail (u : String) (hu : requested (w.getenv USER_ENVVAR) u) (fd e : Nat)
      (h0 : w.sys 0 = SysRet.ok fd) (h1 : w.sys 1 = SysRet.fail e) :
      Shape w
        { outcome := Outcome.Exited 66
          trace := [Event.open NsRef.user u O_RDONLY fd,
            Event.setns fd CLONE_NEWUSER (-1),
            Event.close fd (w.sys 2).ret,
            Event.dprintf STDERR_FILENO
              ("package gons: cannot join user namespace using reference \""
                ++ u ++ "\": " ++ w.strerror ((w.sys 2).errnoAfter e) ++ "\n"),
            Event.exit 66]
          errno := (w.sys 2).errnoAfter e }
  | returned (pre : List Event) (k e0 : Nat) (hp : UserPhase w pre k e0)
      (hm : notRequested (w.getenv MNT_ENVVAR)) :
      Shape w { outcome := Outcome.Returned, trace := pre, errno := e0 }
  | mntOpenFail (pre : List Event) (k e0 : Nat) (hp : UserPhase w pre k e0)
      (m : String) (hm : requested (w.getenv MNT_ENVVAR) m) (e : Nat)
      (h0 : w.sys k = SysRet.fail e) :
      Shape w
        { outcome := Outcome.Exited 66
          trace := pre ++ [Event.open NsRef.mnt m O_RDONLY (-1),
            Event.dprintf STDERR_FILENO
              ("package mntnssandbox: invalid mount namespace reference \""
                ++ m ++ "\": " ++ w.strerror e ++ "\n"),
            Event.exit 66]
          errno := e }
  | mntSetnsFail (pre : List Event) (k e0 : Nat) (hp : UserPhase w pre k e0)
      (m : String) (hm : requested (w.getenv MNT_ENVVAR) m) (fd e : Nat)
      (h0 : w.sys k = SysRet.ok fd) (h1 : w.sys (k + 1) = SysRet.fail e) :
      Shape w
        { outcome := Outcome.Exited 66
          trace := pre ++ [Event.open NsRef.mnt m O_RDONLY fd,
            Event.setns fd CLONE_NEWNS (-1),
            Event.close fd (w.sys (k + 2)).ret,
            Event.dprintf STDERR_FILENO
              ("package gons: cannot join mount namespace using reference \""
                ++ m ++ "\": " ++ w.strerror ((w.sys (k + 2)).errnoAfter e) ++ "\n"),
            Event.exit 66]
          errno := (w.sys (k + 2)).errnoAfter e }
  | parked (pre : List Event) (k e0 : Nat) (hp : UserPhase w pre k e0)
      (m : String) (hm : requested (w.getenv MNT_ENVVAR) m) (fd v : Nat)
      (h0 : w.sys k = SysRet.ok fd) (h1 : w.sys (k + 1) = SysRet.ok v) :
      Shape w
        { outcome := Outcome.Parked
          trace := pre ++ [Event.open NsRef.mnt m O_RDONLY fd,
            Event.setns fd CLONE_NEWNS v,
            Event.close fd (w.sys (k + 2)).ret,
            Event.dprintf STDOUT_FILENO "OK\n"]
            ++ List.replicate (w.wakeups + 1) Event.pause
          errno := if w.wakeups = 0 then (w.sys (k + 2)).errnoAfter e0 else EINTR }

/-- Lines 52-81 of `gosandbox` on their own. -/
def userPart (w : World) : Run Unit := do
  match w.getenv USER_ENVVAR with
  | none => pure ()
  | some usernsref =>
    if usernsref ≠ "" then do
      let usernsfd ← c_open w NsRef.user usernsref O_RDONLY
      if usernsfd < 0 then do
        let msg ← c_strerror_errno w
        c_dprintf STDERR_FILENO
          ("package mntnssandbox: invalid user namespace reference \""
            ++ usernsref ++ "\": " ++ msg ++ "\n")
        c_exit 66
      let res ← c_setns w usernsfd CLONE_NEWUSER
      let _ ← c_close w usernsfd
      if res < 0 then do
        let msg ← c_strerror_errno w
        c_dprintf STDERR_FILENO
          ("package gons: cannot join user namespace using reference \""
            ++ usernsref ++ "\": " ++ msg ++ "\n")
        c_exit 66

/-- Lines 83-107 of `gosandbox` on their own. -/
def mntPart (w : World) : Run Unit := do
  match w.getenv MNT_ENVVAR with
  | none => c_return
  | some mntnsref =>
    if mntnsref = "" then
      c_return
    let mntnsfd ← c_open w NsRef.mnt mntnsref O_RDONLY
    if mntnsfd < 0 then do
      let msg ← c_strerror_errno w
      c_dprintf STDERR_FILENO
        ("package mntnssandbox: invalid mount namespace reference \""
          ++ mntnsref ++ "\": " ++ msg ++ "\n")
      c_exit 66
    let res ← c_setns w mntnsfd CLONE_NEWNS
    let _ ← c_close w mntnsfd
    if res < 0 then do
      let msg ← c_strerror_errno w
      c_dprintf STDERR_FILENO
        ("package gons: cannot join mount namespace using reference \""
          ++ mntnsref ++ "\": " ++ msg ++ "\n")
      c_exit 66
    c_dprintf STDOUT_FILENO "OK\n"
    pauseLoop w.wakeups

/-- A trace in which every successful `open` is directly followed by a
`setns` and a `close` of the descriptor it returned, and no other `close`
occurs. -/
inductive Bracketed : List Event → Prop where
  | nil : Bracketed []
  | other (e : Event) (t : List Event) (hc : e.isClose = false)
      (ho : e.isOpen = true → e.failed = true) (ht : Bracketed t) :
      Bracketed (e :: t)
  | bracket (ref : NsRef) (path : String) (fl : Nat) (fd : Int) (ty : Nat)
      (r c : Int) (t : List Event) (hfd : 0 ≤ fd) (ht : Bracketed t) :
      Bracketed (Event.open ref path fl fd :: Event.setns fd ty r ::
        Event.close fd c :: t)

/-! ## Sample worlds -/

/-- A few entries of the C library's error texts. -/
def sampleStrerror (e : Nat) : String :=
  if e = 1 then "Operation not permitted"
  else if e = 2 then "No such file or directory"
  else if e = 5 then "Input/output error"
  else "Unknown error"

/-- An environment with the two variables set as given and nothing else. -/
def sampleEnv (user mnt : Option String) (name : String) : Option String :=
  if name = "sleepy_userns" then user
  else if name = "sleepy_mntns" then mnt
  else none

/-- A world in which every call succeeds, `open` with descriptor 3. -/
def calmWorld (user mnt : Option String) (wakeups : Nat) : World :=
  { getenv := sampleEnv user mnt
    sys := fun k => if k = 0 ∨ k = 3 then SysRet.ok 3 else SysRet.ok 0
    errno0 := 0
    strerror := sampleStrerror
    wakeups := wakeups }

/-- Only the user reference is set; its `open`, `setns` and `close` succeed. -/
def userOnlyWorld : World :=
  calmWorld (some "/proc/1234/ns/user") none 0

/-- Only the mount reference is set, to a path whose `open` fails with
`ENOENT`. -/
def missingMntWorld : World :=
  { getenv := sampleEnv none (some "/no/such/ns")
    sys := fun _ => SysRet.fail 2
    errno0 := 0
    strerror := sampleStrerror
    wakeups := 0 }

/-- The user `setns` fails with `EPERM` (1), then the `close` fails with
`EIO` (5). -/
def clobberWorld : World :=
  { getenv := sampleEnv (some "/proc/1234/ns/user") none
    sys := fun k => if k = 0 then SysRet.ok 3 else if k = 1 then SysRet.fail 1 else SysRet.fail 5
    errno0 := 0
    strerror := sampleStrerror
    wakeups := 0 }

/-! ## Helper facts -/

theorem pauseLoop_eq {α : Type} (n : Nat) (p : Proc) :
    (pauseLoop n p : Step α) =
      .stop Outcome.Parked
        { errno := if n = 0 then p.errno else EINTR, nsys := p.nsys,
          trace := p.trace ++ List.replicate (n + 1) Event.pause } := by
  induction n generalizing p with
  | zero => simp [pauseLoop, Proc.emit]
  | succ n ih =>
    simp only [pauseLoop]
    rw [ih]
    by_cases hn : n = 0 <;> simp [Proc.emit, hn, List.replicate_succ]

theorem natCast_not_neg (n : Nat) : ¬ ((n : Int) < 0) := by omega

theorem requested_or_not (o : Option String) :
    notRequested o ∨ ∃ s, requested o s := by
  rcases o with _ | s
  · exact Or.inl (Or.inl rfl)
  · by_cases h : s = ""
    · exact Or.inl (Or.inr (by rw [h]))
    · exact Or.inr ⟨s, rfl, h⟩

/-- The routine is its two halves one after the other. -/
theorem gosandbox_split (w : World) :
    gosandbox w = Run.bind (userPart w) (fun _ => mntPart w) := by
  funext p
  rcases hu : w.getenv USER_ENVVAR with _ | u
  · simp [gosandbox, userPart, mntPart, hu, bind, Run.bind, pure]
  · by_cases hue : u = ""
    · simp [gosandbox, userPart, mntPart, hu, hue, bind, Run.bind, pure]
    · rcases h0 : w.sys p.nsys with fd | e <;> rcases h1 : w.sys (p.nsys + 1) with v | e1 <;>
        simp [gosandbox, userPart, mntPart, hu, hue, bind, Run.bind, pure, c_open,
          c_setns, c_close, sysCall, h0, h1, SysRet.ret, c_strerror_errno, c_dprintf,
          c_exit, natCast_not_neg]

/-- The mount half, started after the user half left `pre`, `k` and `e0`,
produces one of the four mount shapes. -/
theorem mntPart_shape (w : World) (pre : List Event) (k e0 : Nat)
    (hp : UserPhase w pre k e0) :
    Shape w (mntPart w { errno := e0, nsys := k, trace := pre }).result := by
  rcases requested_or_not (w.getenv MNT_ENVVAR) with hm | ⟨m, hm⟩
  · have h := Shape.returned pre k e0 hp hm
    convert h using 1
    rcases hm with hm | hm <;> simp [mntPart, Step.result, hm, c_return, bind, Run.bind]
  · obtain ⟨hm1, hm2⟩ := id hm
    rcases h0 : w.sys k with fd | e
    · rcases h1 : w.sys (k + 1) with v | e
      · have h := Shape.parked pre k e0 hp m hm fd v h0 h1
        convert h using 1
        simp [mntPart, Step.result, hm1, hm2, c_return, bind, Run.bind, pure, c_open,
          c_setns, c_close, sysCall, h0, h1, SysRet.ret, SysRet.errnoAfter,
          c_strerror_errno, c_dprintf, c_exit, Proc.emit, natCast_not_neg, pauseLoop_eq]
      · have h := Shape.mntSetnsFail pre k e0 hp m hm fd e h0 h1
        convert h using 1
        simp [mntPart, Step.result, hm1, hm2, c_return, bind, Run.bind, pure, c_open,
          c_setns, c_close, sysCall, h0, h1, SysRet.ret, SysRet.errnoAfter,
          c_strerror_errno, c_dprintf, c_exit, Proc.emit, natCast_not_neg, pauseLoop_eq]
    · have h := Shape.mntOpenFail pre k e0 hp m hm e h0
      convert h using 1
      simp [mntPart, Step.result, hm1, hm2, c_return, bind, Run.bind, pure, c_open,
        c_setns, c_close, sysCall, h0, SysRet.ret, SysRet.errnoAfter,
        c_strerror_errno, c_dprintf, c_exit, Proc.emit, natCast_not_neg, pauseLoop_eq]

/-- Every run of `gosandbox` has one of the shapes. -/
theorem exec_shape (w : World) : Shape w (exec w) := by
  unfold exec
  rw [gosandbox_split]
  rcases requested_or_not (w.getenv USER_ENVVAR) with hu | ⟨u, hu⟩
  · have h := mntPart_shape w [] 0 w.errno0 (UserPhase.skipped hu)
    convert h using 2
    rcases hu with hu | hu <;> simp [userPart, hu, Run.bind, pure]
  · obtain ⟨hu1, hu2⟩ := id hu
    rcases h0 : w.sys 0 with fd | e
    · rcases h1 : w.sys 1 with v | e
      · have h := mntPart_shape w _ _ _ (UserPhase.joined u hu fd v h0 h1)
        convert h using 2
        simp [userPart, hu1, hu2, bind, Run.bind, pure, c_open,
          c_setns, c_close, sysCall, h0, h1, SysRet.ret, SysRet.errnoAfter,
          c_strerror_errno, c_dprintf, c_exit, Proc.emit, natCast_not_neg]
      · have h := Shape.userSetnsFail u hu fd e h0 h1
        convert h using 1
        simp [userPart, Step.result, hu1, hu2, bind, Run.bind, pure, c_open,
          c_setns, c_close, sysCall, h0, h1, SysRet.ret, SysRet.errnoAfter,
          c_strerror_errno, c_dprintf, c_exit, Proc.emit, natCast_not_neg]
    · have h := Shape.userOpenFail u hu e h0
      convert h using 1
      simp [userPart, Step.result, hu1, hu2, bind, Run.bind, pure, c_open,
        c_setns, c_close, sysCall, h0, SysRet.ret, SysRet.errnoAfter,
        c_strerror_errno, c_dprintf, c_exit, Proc.emit, natCast_not_neg]

theorem writes_append (fd : Nat) (a b : List Event) :
    writes fd (a ++ b) = writes fd a ++ writes fd b := by
  simp [writes, List.filterMap_append]

theorem writes_pauses (fd n : Nat) :
    writes fd (List.replicate n Event.pause) = [] := by
  induction n with
  | zero => rfl
  | succ n ih =>
    rw [List.replicate_succ]
    simp [writes]

theorem userPhase_writes (w : World) (pre : List Event) (k e0 fd : Nat)
    (hp : UserPhase w pre k e0) : writes fd pre = [] := by
  cases hp <;> simp [writes]

theorem not_both (o : Option String) (s : String)
    (h1 : notRequested o) (h2 : requested o s) : False := by
  obtain ⟨h2, h3⟩ := h2
  rcases h1 with h1 | h1
  · rw [h1] at h2
    cases h2
  · rw [h1] at h2
    exact h3 (Option.some.inj h2).symm

theorem requested_unique (o : Option String) (s t : String)
    (h1 : requested o s) (h2 : requested o t) : s = t := by
  have h := h1.1.symm.trans h2.1
  exact Option.some.inj h

theorem userPhase_no_mnt_setns (w : World) (pre : List Event) (k e0 : Nat)
    (hp : UserPhase w pre k e0) (fd r : Int) :
    Event.setns fd CLONE_NEWNS r ∉ pre := by
  cases hp <;> simp [CLONE_NEWNS, CLONE_NEWUSER]

theorem userPhase_no_mnt_open (w : World) (pre : List Event) (k e0 : Nat)
    (hp : UserPhase w pre k e0) (m : String) (fl : Nat) (fd : Int) :
    Event.open NsRef.mnt m fl fd ∉ pre := by
  cases hp <;> simp

theorem userPhase_passed (w : World) (pre : List Event) (k e0 : Nat)
    (hp : UserPhase w pre k e0) (post : List Event) :
    userStepPassed w (pre ++ post) := by
  cases hp with
  | skipped hu => exact Or.inl hu
  | joined u hu fd v h0 h1 =>
    exact Or.inr ⟨u, fd, v, hu, by simp, by simp, by simp, by simp⟩

theorem output_nil (fd : Nat) (t : List Event) (h : writes fd t = []) :
    output fd t = "" := by
  simp [output, h, String.join]

theorem output_single (fd : Nat) (t : List Event) (s : String)
    (h : writes fd t = [s]) : output fd t = s := by
  simp [output, h, String.join]

theorem userPhase_no_failed (w : World) (pre : List Event) (k e0 : Nat)
    (hp : UserPhase w pre k e0) : ∀ x ∈ pre, x.failed = false := by
  cases hp <;> simp [Event.failed]

theorem userPhase_no_mnt_kind (w : World) (pre : List Event) (k e0 : Nat)
    (hp : UserPhase w pre k e0) : ∀ x ∈ pre, x.kind ≠ some NsRef.mnt := by
  cases hp <;> simp [Event.kind, CLONE_NEWNS, CLONE_NEWUSER]

theorem userPhase_no_user_fail (w : World) (pre : List Event) (k e0 : Nat)
    (hp : UserPhase w pre k e0) :
    ∀ x ∈ pre, ¬ (x.failed = true ∧ x.kind = some NsRef.user) := by
  intro x hx h
  rw [userPhase_no_failed w pre k e0 hp x hx] at h
  exact absurd h.1 (by decide)

theorem diag_infix (a s b msg c : String) :
    s.data <:+: (a ++ s ++ b ++ msg ++ c).data :=
  ⟨a.data, (b ++ msg ++ c).data, by simp [String.data_append]⟩

/-- Calls of the user kind in a first segment and calls of the mount kind in
a second one are in strict order. -/
theorem ordered_of_split (a b : List Event)
    (ha : ∀ x ∈ a, x.kind ≠ some NsRef.mnt)
    (hb : ∀ x ∈ b, x.kind ≠ some NsRef.user)
    (i j : Nat) (e1 e2 : Event)
    (h1 : (a ++ b)[i]? = some e1) (h2 : (a ++ b)[j]? = some e2)
    (k1 : e1.kind = some NsRef.user) (k2 : e2.kind = some NsRef.mnt) : i < j := by
  by_contra hij
  by_cases hi : i < a.length
  · have hj : j < a.length := by omega
    rw [List.getElem?_append_left hj] at h2
    exact ha e2 (List.getElem?_mem h2) k2
  · rw [List.getElem?_append_right (by omega)] at h1
    exact hb e1 (List.getElem?_mem h1) k1

/-- In a trace that starts with the three calls of a user step, a call other
than the first two sits behind the second. -/
theorem behind_second (o s c x : Event) (rest : List Event) (j : Nat)
    (h : (o :: s :: c :: rest)[j]? = some x) (ho : x ≠ o) (hs : x ≠ s) : 1 < j := by
  rcases j with _ | _ | j
  · simp at h
    exact (ho h.symm).elim
  · simp at h
    exact (hs h.symm).elim
  · omega

theorem fdStep_other (e : Event) (hc : e.isClose = false)
    (ho : e.isOpen = true → e.failed = true) : fdStep [] e = [] := by
  cases e <;> simp_all [fdStep, Event.isClose, Event.isOpen, Event.failed]

theorem bracketed_append (a b : List Event) (ha : Bracketed a) (hb : Bracketed b) :
    Bracketed (a ++ b) := by
  induction ha with
  | nil => exact hb
  | other e t hc ho _ ih => exact Bracketed.other e _ hc ho ih
  | bracket ref path fl fd ty r c t hfd _ ih =>
    exact Bracketed.bracket ref path fl fd ty r c _ hfd ih

theorem bracketed_pauses (n : Nat) : Bracketed (List.replicate n Event.pause) := by
  induction n with
  | zero => exact Bracketed.nil
  | succ n ih =>
    rw [List.replicate_succ]
    exact Bracketed.other _ _ rfl (fun h => by simp [Event.isOpen] at h) ih

/-- In a bracketed trace no descriptor is left open at the end. -/
theorem bracketed_openFds (t : List Event) (h : Bracketed t) : openFds t = [] := by
  induction h with
  | nil => rfl
  | other e t hc ho _ ih =>
    unfold openFds at ih ⊢
    rw [List.foldl_cons, fdStep_other e hc ho]
    exact ih
  | bracket ref path fl fd ty r c t hfd _ ih =>
    unfold openFds at ih ⊢
    have hneg : ¬ fd < 0 := by omega
    simp only [List.foldl_cons, fdStep, hneg, if_false]
    simpa using ih

/-- In a bracketed trace at most one descriptor is open after any prefix. -/
theorem bracketed_prefix (t : List Event) (h : Bracketed t) :
    ∀ pre, pre <+: t → (openFds pre).length ≤ 1 := by
  induction h with
  | nil =>
    intro pre hpre
    rw [List.prefix_nil.mp hpre]
    simp [openFds]
  | other e t hc ho _ ih =>
    intro pre hpre
    rcases List.prefix_cons_iff.mp hpre with rfl | ⟨p1, rfl, h1⟩
    · simp [openFds]
    · have := ih p1 h1
      unfold openFds at this ⊢
      rw [List.foldl_cons, fdStep_other e hc ho]
      exact this
  | bracket ref path fl fd ty r c t hfd _ ih =>
    intro pre hpre
    have hneg : ¬ fd < 0 := by omega
    rcases List.prefix_cons_iff.mp hpre with rfl | ⟨p1, rfl, h1⟩
    · simp [openFds]
    rcases List.prefix_cons_iff.mp h1 with rfl | ⟨p2, rfl, h2⟩
    · simp [openFds, fdStep, hneg]
    rcases List.prefix_cons_iff.mp h2 with rfl | ⟨p3, rfl, h3⟩
    · simp [openFds, fdStep, hneg]
    have := ih p3 h3
    unfold openFds at this ⊢
    simp only [List.foldl_cons, fdStep, hneg, if_false]
    simpa using this

/-- In a bracketed trace a successful `open` is directly followed by a
`setns` and a `close` of its descriptor. -/
theorem bracketed_follow (t : List Event) (h : Bracketed t) :
    ∀ (pre post : List Event) (ref : NsRef) (path : String) (fl : Nat) (fd : Int),
      t = pre ++ Event.open ref path fl fd :: post → 0 ≤ fd →
      ∃ ty r c rest, post = Event.setns fd ty r :: Event.close fd c :: rest := by
  induction h with
  | nil =>
    intro pre post ref path fl fd ht
    simp at ht
  | other e t hc ho _ ih =>
    intro pre post ref path fl fd ht hfd
    rcases pre with _ | ⟨x, pre⟩
    · simp at ht
      obtain ⟨rfl, -⟩ := ht
      have := ho rfl
      simp [Event.failed] at this
      omega
    · simp at ht
      exact ih pre post ref path fl fd ht.2 hfd
  | bracket ref0 path0 fl0 fd0 ty r c t hfd0 _ ih =>
    intro pre post ref path fl fd ht hfd
    rcases pre with _ | ⟨x, _ | ⟨y, _ | ⟨z, pre⟩⟩⟩
    · simp at ht
      obtain ⟨⟨-, -, -, rfl⟩, rfl⟩ := ht
      exact ⟨ty, r, c, t, rfl⟩
    · simp at ht
    · simp at ht
    · simp at ht
      exact ih pre post ref path fl fd ht.2.2.2 hfd

theorem bracketed_cons (e : Event) (t : List Event) (hc : e.isClose = false)
    (ho : e.isOpen = false) (ht : Bracketed t) : Bracketed (e :: t) :=
  Bracketed.other e t hc (fun h => by rw [ho] at h; cases h) ht

theorem userPhase_bracketed (w : World) (pre : List Event) (k e0 : Nat)
    (hp : UserPhase w pre k e0) : Bracketed pre := by
  cases hp with
  | skipped => exact Bracketed.nil
  | joined u hu fd v h0 h1 =>
    exact Bracketed.bracket _ _ _ _ _ _ _ _ (by simp) Bracketed.nil

/-- Every run of `gosandbox` gives a bracketed trace. -/
theorem exec_bracketed (w : World) : Bracketed (exec w).trace := by
  have h := exec_shape w
  generalize exec w = r at h
  cases h with
  | userOpenFail u hu e h0 =>
    refine Bracketed.other _ _ rfl (fun _ => by simp [Event.failed]) ?_
    refine bracketed_cons _ _ rfl rfl ?_
    refine bracketed_cons _ _ rfl rfl ?_
    exact Bracketed.nil
  | userSetnsFail u hu fd e h0 h1 =>
    refine Bracketed.bracket _ _ _ _ _ _ _ _ (by simp) ?_
    refine bracketed_cons _ _ rfl rfl ?_
    refine bracketed_cons _ _ rfl rfl ?_
    exact Bracketed.nil
  | returned pre k e0 hp hm => exact userPhase_bracketed w pre k e0 hp
  | mntOpenFail pre k e0 hp m hm e h0 =>
    refine bracketed_append _ _ (userPhase_bracketed w pre k e0 hp) ?_
    refine Bracketed.other _ _ rfl (fun _ => by simp [Event.failed]) ?_
    refine bracketed_cons _ _ rfl rfl ?_
    refine bracketed_cons _ _ rfl rfl ?_
    exact Bracketed.nil
  | mntSetnsFail pre k e0 hp m hm fd e h0 h1 =>
    refine bracketed_append _ _ (userPhase_bracketed w pre k e0 hp) ?_
    refine Bracketed.bracket _ _ _ _ _ _ _ _ (by simp) ?_
    refine bracketed_cons _ _ rfl rfl ?_
    refine bracketed_cons _ _ rfl rfl ?_
    exact Bracketed.nil
  | parked pre k e0 hp m hm fd v h0 h1 =>
    refine bracketed_append _ _ (bracketed_append _ _
      (userPhase_bracketed w pre k e0 hp) ?_) (bracketed_pauses _)
    refine Bracketed.bracket _ _ _ _ _ _ _ _ (by simp) ?_
    refine bracketed_cons _ _ rfl rfl ?_
    exact Bracketed.nil

theorem countP_pauses (p : Event → Bool) (hp : p Event.pause = false) (n : Nat) :
    List.countP p (List.replicate n Event.pause) = 0 := by
  induction n with
  | zero => rfl
  | succ n ih =>
    rw [List.replicate_succ, List.countP_cons, ih, hp]
    rfl

theorem userPhase_counts (w : World) (pre : List Event) (k e0 : Nat)
    (hp : UserPhase w pre k e0) :
    List.countP (Event.isSetnsOf CLONE_NEWUSER) pre ≤ 1 ∧
    List.countP (Event.isSetnsOf CLONE_NEWNS) pre = 0 ∧
    List.countP (Event.isOpenOf NsRef.user) pre ≤ 1 ∧
    List.countP (Event.isOpenOf NsRef.mnt) pre = 0 := by
  cases hp <;>
    simp [List.countP_cons, Event.isSetnsOf, Event.isOpenOf, CLONE_NEWNS, CLONE_NEWUSER]

theorem tailRun_mark (n : Nat) (p : Proc) :
    tailRun (n + 1) ⟨Ctl.atMarker, p⟩ =
      tailRun n ⟨Ctl.atLoop, p.emit (Event.dprintf STDOUT_FILENO "OK\n")⟩ := by
  rw [tailRun, tailStep]

theorem tailRun_call (n : Nat) (p : Proc) :
    tailRun (n + 1) ⟨Ctl.atLoop, p⟩ = tailRun n ⟨Ctl.inPause, p.emit Event.pause⟩ := by
  rw [tailRun, tailStep]

theorem tailRun_wake (n : Nat) (p : Proc) :
    tailRun (n + 1) ⟨Ctl.inPause, p⟩ =
      tailRun n ⟨Ctl.atLoop, { p with errno := EINTR }⟩ := by
  rw [tailRun, tailStep]

/-- From the top of the loop, `2 * n` steps are `n` calls of `pause` that each
returned. -/
theorem tailRun_loop (n : Nat) (p : Proc) :
    tailRun (2 * n) ⟨Ctl.atLoop, p⟩ =
      ⟨Ctl.atLoop, { errno := if n = 0 then p.errno else EINTR, nsys := p.nsys,
                     trace := p.trace ++ List.replicate n Event.pause }⟩ := by
  induction n generalizing p with
  | zero => simp [tailRun]
  | succ n ih =>
    have h2 : 2 * (n + 1) = 2 * n + 1 + 1 := by omega
    rw [h2, tailRun_call, tailRun_wake, ih]
    by_cases hn : n = 0 <;> simp [Proc.emit, hn, List.replicate_succ]

/-- From the top of the loop, `2 * n + 1` steps are `n` calls of `pause` that
each returned and one more call, in which the routine is suspended. -/
theorem tailRun_loop_odd (n : Nat) (p : Proc) :
    tailRun (2 * n + 1) ⟨Ctl.atLoop, p⟩ =
      ⟨Ctl.inPause, { errno := if n = 0 then p.errno else EINTR, nsys := p.nsys,
                      trace := p.trace ++ List.replicate (n + 1) Event.pause }⟩ := by
  induction n generalizing p with
  | zero => simp [tailRun, tailStep, Proc.emit]
  | succ n ih =>
    have h2 : 2 * (n + 1) + 1 = (2 * n + 1) + 1 + 1 := by omega
    rw [h2, tailRun_call, tailRun_wake, ih]
    by_cases hn : n = 0 <;> simp [Proc.emit, hn, List.replicate_succ]

/-- From the marker, `2 * n + 2` steps write the marker and then loop as in
`tailRun_loop_odd`. -/
theorem tailRun_marker (n : Nat) (p : Proc) :
    tailRun (2 * n + 2) ⟨Ctl.atMarker, p⟩ =
      ⟨Ctl.inPause,
        { errno := if n = 0 then p.errno else EINTR, nsys := p.nsys,
          trace := p.trace ++ [Event.dprintf STDOUT_FILENO "OK\n"] ++
            List.replicate (n + 1) Event.pause }⟩ := by
  have e : 2 * n + 2 = (2 * n + 1) + 1 := by omega
  rw [e, tailRun_mark, tailRun_loop_odd]
  simp [Proc.emit]

/-- One step from a parked state stays parked and adds at most a `pause`. -/
theorem parked_step (c d : Config) (hc : c.parked) (h : TailStep c d) :
    d.parked ∧ ∃ k, d.proc.trace = c.proc.trace ++ List.replicate k Event.pause := by
  obtain ⟨ctl, p⟩ := c
  rcases hc with hc | hc
  · simp only at hc
    subst hc
    simp only [TailStep, tailStep, Option.some.injEq] at h
    subst h
    exact ⟨Or.inr rfl, 1, by simp [Proc.emit]⟩
  · simp only at hc
    subst hc
    simp only [TailStep, tailStep, Option.some.injEq] at h
    subst h
    exact ⟨Or.inl rfl, 0, by simp⟩

/-- Any number of steps from a parked state stays parked and adds only
`pause` calls. -/
theorem parked_steps (c d : Config) (hc : c.parked)
    (h : Relation.ReflTransGen TailStep c d) :
    d.parked ∧ ∃ k, d.proc.trace = c.proc.trace ++ List.replicate k Event.pause := by
  induction h with
  | refl => exact ⟨hc, 0, by simp⟩
  | tail _ hstep ih =>
    obtain ⟨hp, k, hk⟩ := ih
    obtain ⟨hp2, k2, hk2⟩ := parked_step _ _ hp hstep
    refine ⟨hp2, k + k2, ?_⟩
    rw [hk2, hk, List.append_assoc, List.append_replicate_replicate]

theorem filter_pauses (n : Nat) :
    (List.replicate n Event.pause).filter (fun e => e.isOpen || e.isSetns) = [] := by
  induction n with
  | zero => rfl
  | succ n ih =>
    rw [List.replicate_succ]
    simp [Event.isOpen, Event.isSetns]

/-- The world observed with other wakeups has the same environment, kernel
answers, entry `errno` and error texts. -/
theorem withWakeups_fields (w : World) (n : Nat) :
    (w.withWakeups n).getenv = w.getenv ∧ (w.withWakeups n).sys = w.sys ∧
    (w.withWakeups n).errno0 = w.errno0 ∧ (w.withWakeups n).strerror = w.strerror ∧
    (w.withWakeups n).wakeups = n :=
  ⟨rfl, rfl, rfl, rfl, rfl⟩

/-- The run with only the mount reference requested, `open` succeeding and
`setns` failing. -/
theorem exec_mntOnly_setnsFail (w : World) (m : String) (fd e : Nat)
    (hu : notRequested (w.getenv USER_ENVVAR))
    (hm : requested (w.getenv MNT_ENVVAR) m)
    (h0 : w.sys 0 = SysRet.ok fd) (h1 : w.sys 1 = SysRet.fail e) :
    exec w =
      { outcome := Outcome.Exited 66
        trace := [Event.open NsRef.mnt m O_RDONLY fd,
          Event.setns fd CLONE_NEWNS (-1),
          Event.close fd (w.sys 2).ret,
          Event.dprintf STDERR_FILENO
            ("package gons: cannot join mount namespace using reference \""
              ++ m ++ "\": " ++ w.strerror ((w.sys 2).errnoAfter e) ++ "\n"),
          Event.exit 66]
        errno := (w.sys 2).errnoAfter e } := by
  obtain ⟨hm1, hm2⟩ := hm
  rcases hu with hu | hu <;>
    simp [exec, gosandbox, Step.result, hu, hm1, hm2, c_return, bind, Run.bind, pure,
      c_open, c_setns, c_close, sysCall, h0, h1, SysRet.ret, SysRet.errnoAfter,
      c_strerror_errno, c_dprintf, c_exit, Proc.emit, natCast_not_neg]

/-- The run with only the mount reference requested and its `open` and
`setns` succeeding. -/
theorem exec_mntOnly_parked (w : World) (m : String) (fd v : Nat)
    (hu : notRequested (w.getenv USER_ENVVAR))
    (hm : requested (w.getenv MNT_ENVVAR) m)
    (h0 : w.sys 0 = SysRet.ok fd) (h1 : w.sys 1 = SysRet.ok v) :
    exec w =
      { outcome := Outcome.Parked
        trace := [Event.open NsRef.mnt m O_RDONLY fd, Event.setns fd CLONE_NEWNS v,
          Event.close fd (w.sys 2).ret, Event.dprintf STDOUT_FILENO "OK\n"]
          ++ List.replicate (w.wakeups + 1) Event.pause
        errno := if w.wakeups = 0 then (w.sys 2).errnoAfter w.errno0 else EINTR } := by
  obtain ⟨hm1, hm2⟩ := hm
  rcases hu with hu | hu <;>
    simp [exec, gosandbox, Step.result, hu, hm1, hm2, c_return, bind, Run.bind, pure,
      c_open, c_setns, c_close, sysCall, h0, h1, SysRet.ret, SysRet.errnoAfter,
      c_strerror_errno, c_dprintf, c_exit, Proc.emit, natCast_not_neg, pauseLoop_eq]

/-- The run with both references requested and the two `open` and two `setns`
calls succeeding. -/
theorem exec_both_parked (w : World) (u m : String) (fd1 v1 fd2 v2 : Nat)
    (hu : requested (w.getenv USER_ENVVAR) u)
    (hm : requested (w.getenv MNT_ENVVAR) m)
    (h0 : w.sys 0 = SysRet.ok fd1) (h1 : w.sys 1 = SysRet.ok v1)
    (h3 : w.sys 3 = SysRet.ok fd2) (h4 : w.sys 4 = SysRet.ok v2) :
    exec w =
      { outcome := Outcome.Parked
        trace := [Event.open NsRef.user u O_RDONLY fd1, Event.setns fd1 CLONE_NEWUSER v1,
          Event.close fd1 (w.sys 2).ret,
          Event.open NsRef.mnt m O_RDONLY fd2, Event.setns fd2 CLONE_NEWNS v2,
          Event.close fd2 (w.sys 5).ret, Event.dprintf STDOUT_FILENO "OK\n"]
          ++ List.replicate (w.wakeups + 1) Event.pause
        errno := if w.wakeups = 0
          then (w.sys 5).errnoAfter ((w.sys 2).errnoAfter w.errno0) else EINTR } := by
  obtain ⟨hm1, hm2⟩ := hm
  obtain ⟨hu1, hu2⟩ := hu
  simp [exec, gosandbox, Step.result, hu1, hu2, hm1, hm2, c_return, bind, Run.bind, pure,
    c_open, c_setns, c_close, sysCall, h0, h1, h3, h4, SysRet.ret, SysRet.errnoAfter,
    c_strerror_errno, c_dprintf, c_exit, Proc.emit, natCast_not_neg, pauseLoop_eq]

/-- A run that is not parked wrote nothing to standard output. -/
theorem stdout_nil_of_not_parked (w : World) (h : (exec w).outcome ≠ Outcome.Parked) :
    writes STDOUT_FILENO (exec w).trace = [] := by
  have hs := exec_shape w
  generalize exec w = r at hs h
  cases hs with
  | userOpenFail u hu e h0 => simp [writes, STDOUT_FILENO, STDERR_FILENO]
  | userSetnsFail u hu fd e h0 h1 => simp [writes, STDOUT_FILENO, STDERR_FILENO]
  | returned pre k e0 hp hm => exact userPhase_writes w pre k e0 _ hp
  | mntOpenFail pre k e0 hp m hm e h0 =>
    simp only [writes_append, userPhase_writes w pre k e0 _ hp]
    simp [writes, STDOUT_FILENO, STDERR_FILENO]
  | mntSetnsFail pre k e0 hp m hm fd e h0 h1 =>
    simp only [writes_append, userPhase_writes w pre k e0 _ hp]
    simp [writes, STDOUT_FILENO, STDERR_FILENO]
  | parked pre k e0 hp m hm fd v h0 h1 => exact (h rfl).elim

/-- Counts of calls, with the mount-only case stated on the trace: the trace
holds at most one `setns` per namespace kind and at most
one `open` per reference. When the user reference is not requested, the mount
reference is requested and its `open` succeeds, the trace holds no `open` of
the user reference and no `setns(CLONE_NEWUSER)`, exactly one `open`, which is
the read-only `open` of the mount reference, and exactly one `setns`, which is
a `setns(CLONE_NEWNS)`; and if that `setns` succeeds the outcome is `Parked`
after exactly one `"OK\n"` on standard output. -/
theorem exec_counts (w : World) :
    List.countP (Event.isSetnsOf CLONE_NEWUSER) (exec w).trace ≤ 1 ∧
    List.countP (Event.isSetnsOf CLONE_NEWNS) (exec w).trace ≤ 1 ∧
    List.countP (Event.isOpenOf NsRef.user) (exec w).trace ≤ 1 ∧
    List.countP (Event.isOpenOf NsRef.mnt) (exec w).trace ≤ 1 ∧
    (∀ m, notRequested (w.getenv USER_ENVVAR) → requested (w.getenv MNT_ENVVAR) m →
      (∃ fl fd, 0 ≤ fd ∧ Event.open NsRef.mnt m fl fd ∈ (exec w).trace) →
      List.countP (Event.isOpenOf NsRef.user) (exec w).trace = 0 ∧
      List.countP (Event.isSetnsOf CLONE_NEWUSER) (exec w).trace = 0 ∧
      List.countP Event.isOpen (exec w).trace = 1 ∧
      (∃ fd, Event.open NsRef.mnt m O_RDONLY fd ∈ (exec w).trace) ∧
      List.countP Event.isSetns (exec w).trace = 1 ∧
      List.countP (Event.isSetnsOf CLONE_NEWNS) (exec w).trace = 1 ∧
      ((∃ e ∈ (exec w).trace, e.switched = true) →
        (exec w).outcome = Outcome.Parked ∧
        writes STDOUT_FILENO (exec w).trace = ["OK\n"])) := by
  have h := exec_shape w
  generalize exec w = r at h
  cases h with
  | userOpenFail u hu e h0 =>
    refine ⟨by simp [List.countP_cons, Event.isSetnsOf],
      by simp [List.countP_cons, Event.isSetnsOf],
      by simp [List.countP_cons, Event.isOpenOf],
      by simp [List.countP_cons, Event.isOpenOf], ?_⟩
    intro m hu2
    exact (not_both _ _ hu2 hu).elim
  | userSetnsFail u hu fd e h0 h1 =>
    refine ⟨by simp [List.countP_cons, Event.isSetnsOf],
      by simp [List.countP_cons, Event.isSetnsOf, CLONE_NEWNS, CLONE_NEWUSER],
      by simp [List.countP_cons, Event.isOpenOf],
      by simp [List.countP_cons, Event.isOpenOf], ?_⟩
    intro m hu2
    exact (not_both _ _ hu2 hu).elim
  | returned pre k e0 hp hm =>
    obtain ⟨c1, c2, c3, c4⟩ := userPhase_counts w pre k e0 hp
    refine ⟨c1, by simp [c2], c3, by simp [c4], ?_⟩
    intro m _ hm2
    exact (not_both _ _ hm hm2).elim
  | mntOpenFail pre k e0 hp m hm e h0 =>
    obtain ⟨c1, c2, c3, c4⟩ := userPhase_counts w pre k e0 hp
    refine ⟨?_, ?_, ?_, ?_, ?_⟩
    · simpa [List.countP_cons, Event.isSetnsOf] using c1
    · simp [List.countP_cons, Event.isSetnsOf, c2]
    · simpa [List.countP_cons, Event.isOpenOf] using c3
    · simp [List.countP_cons, Event.isOpenOf, c4]
    · rintro m2 hu hm2 ⟨fl, fd, hfd, hmem⟩
      simp [userPhase_no_mnt_open w pre k e0 hp] at hmem
      omega
  | mntSetnsFail pre k e0 hp m hm fd e h0 h1 =>
    obtain ⟨c1, c2, c3, c4⟩ := userPhase_counts w pre k e0 hp
    refine ⟨?_, ?_, ?_, ?_, ?_⟩
    · simpa [List.countP_cons, Event.isSetnsOf, CLONE_NEWNS, CLONE_NEWUSER] using c1
    · simp [List.countP_cons, Event.isSetnsOf, c2]
    · simpa [List.countP_cons, Event.isOpenOf] using c3
    · simp [List.countP_cons, Event.isOpenOf, c4]
    · rintro m2 hu hm2 -
      obtain rfl := requested_unique _ _ _ hm hm2
      cases hp with
      | joined u hu2 => exact (not_both _ _ hu hu2).elim
      | skipped =>
        refine ⟨by simp [List.countP_cons, Event.isOpenOf],
          by simp [List.countP_cons, Event.isSetnsOf, CLONE_NEWNS, CLONE_NEWUSER],
          by simp [List.countP_cons, Event.isOpen], ⟨fd, by simp⟩,
          by simp [List.countP_cons, Event.isSetns],
          by simp [List.countP_cons, Event.isSetnsOf], ?_⟩
        rintro ⟨x, hx, hs⟩
        simp at hx
        rcases hx with rfl | rfl | rfl | rfl | rfl <;> simp [Event.switched] at hs
  | parked pre k e0 hp m hm fd v h0 h1 =>
    obtain ⟨c1, c2, c3, c4⟩ := userPhase_counts w pre k e0 hp
    refine ⟨?_, ?_, ?_, ?_, ?_⟩
    · simpa [List.countP_cons, Event.isSetnsOf, CLONE_NEWNS, CLONE_NEWUSER,
        countP_pauses] using c1
    · simp [List.countP_cons, Event.isSetnsOf, c2, countP_pauses]
    · simpa [List.countP_cons, Event.isOpenOf, countP_pauses] using c3
    · simp [List.countP_cons, Event.isOpenOf, c4, countP_pauses]
    · rintro m2 hu hm2 -
      obtain rfl := requested_unique _ _ _ hm hm2
      cases hp with
      | joined u hu2 => exact (not_both _ _ hu hu2).elim
      | skipped =>
        refine ⟨by simp [List.countP_cons, Event.isOpenOf, countP_pauses],
          by simp [List.countP_cons, Event.isSetnsOf, CLONE_NEWNS, CLONE_NEWUSER,
            countP_pauses],
          by simp [List.countP_cons, Event.isOpen, countP_pauses], ⟨fd, by simp⟩,
          by simp [List.countP_cons, Event.isSetns, countP_pauses],
          by simp [List.countP_cons, Event.isSetnsOf, countP_pauses], fun _ => ⟨rfl, ?_⟩⟩
        simp only [List.nil_append, writes_append, writes_pauses]
        simp [writes]

/-- Facts on the tail machine: lines 104-107 as a step relation in which a
`pause` may return.
Writing the marker leads to the top of the loop, a parked state. The code of
`gosandbox` for these lines with `n` returns of `pause` is the machine run for
`2 * n + 2` steps, ending inside `pause`; a parked run of `gosandbox` is such
a machine run. After any `n` returns of `pause` the machine is at the top of
the loop and its next step calls `pause` again. From a parked state every
reachable state is parked, is neither returned nor exited, and its trace is
the old trace followed by `pause` calls only: standard output and standard
error receive nothing more and no `open` or `setns` is made. -/
theorem tail_facts :
    (∀ p : Proc, TailStep ⟨Ctl.atMarker, p⟩
      ⟨Ctl.atLoop, p.emit (Event.dprintf STDOUT_FILENO "OK\n")⟩ ∧
      Config.parked ⟨Ctl.atLoop, p.emit (Event.dprintf STDOUT_FILENO "OK\n")⟩) ∧
    (∀ (n : Nat) (p : Proc),
      (Run.bind (c_dprintf STDOUT_FILENO "OK\n") (fun _ => pauseLoop n) : Run Unit) p =
        Step.stop Outcome.Parked (tailRun (2 * n + 2) ⟨Ctl.atMarker, p⟩).proc ∧
      (tailRun (2 * n + 2) ⟨Ctl.atMarker, p⟩).ctl = Ctl.inPause) ∧
    (∀ w : World, (exec w).outcome = Outcome.Parked →
      ∃ p : Proc,
        (tailRun (2 * w.wakeups + 2) ⟨Ctl.atMarker, p⟩).ctl = Ctl.inPause ∧
        (tailRun (2 * w.wakeups + 2) ⟨Ctl.atMarker, p⟩).proc.trace = (exec w).trace ∧
        (tailRun (2 * w.wakeups + 2) ⟨Ctl.atMarker, p⟩).proc.errno = (exec w).errno) ∧
    (∀ (n : Nat) (p : Proc), ∃ q : Proc,
      tailRun (2 * n) ⟨Ctl.atLoop, p⟩ = ⟨Ctl.atLoop, q⟩ ∧
      q.trace = p.trace ++ List.replicate n Event.pause ∧
      TailStep ⟨Ctl.atLoop, q⟩ ⟨Ctl.inPause, q.emit Event.pause⟩) ∧
    (∀ c d : Config, c.parked → Relation.ReflTransGen TailStep c d →
      d.parked ∧ d.ctl ≠ Ctl.returned ∧ (∀ code, d.ctl ≠ Ctl.exited code) ∧
      (∃ k, d.proc.trace = c.proc.trace ++ List.replicate k Event.pause) ∧
      writes STDOUT_FILENO d.proc.trace = writes STDOUT_FILENO c.proc.trace ∧
      writes STDERR_FILENO d.proc.trace = writes STDERR_FILENO c.proc.trace ∧
      d.proc.trace.filter (fun e => e.isOpen || e.isSetns) =
        c.proc.trace.filter (fun e => e.isOpen || e.isSetns)) := by
  refine ⟨fun p => ⟨rfl, Or.inl rfl⟩, fun n p => ?_, fun w hw => ?_, fun n p => ?_,
    fun c d hc hcd => ?_⟩
  · rw [tailRun_marker]
    refine ⟨?_, rfl⟩
    simp [Run.bind, c_dprintf, pauseLoop_eq, Proc.emit]
  · have h := exec_shape w
    generalize exec w = r at h hw
    cases h with
    | userOpenFail => simp at hw
    | userSetnsFail => simp at hw
    | returned => simp at hw
    | mntOpenFail => simp at hw
    | mntSetnsFail => simp at hw
    | parked pre k e0 hp m hm fd v h0 h1 =>
      refine ⟨{ errno := (w.sys (k + 2)).errnoAfter e0, nsys := k + 3,
                trace := pre ++ [Event.open NsRef.mnt m O_RDONLY fd,
                  Event.setns fd CLONE_NEWNS v, Event.close fd (w.sys (k + 2)).ret] }, ?_⟩
      rw [tailRun_marker]
      simp
  · rw [tailRun_loop]
    exact ⟨_, rfl, rfl, rfl⟩
  · obtain ⟨hp, k, hk⟩ := parked_steps c d hc hcd
    refine ⟨hp, ?_, ?_, ⟨k, hk⟩, ?_, ?_, ?_⟩
    · intro h
      rcases hp with hp | hp <;> rw [h] at hp <;> cases hp
    · intro code h
      rcases hp with hp | hp <;> rw [h] at hp <;> cases hp
    · rw [hk, writes_append, writes_pauses, List.append_nil]
    · rw [hk, writes_append, writes_pauses, List.append_nil]
    · rw [hk, List.filter_append, filter_pauses, List.append_nil]

/-! ## The claims -/

/-- C1, evaluated on the code: with only `sleepy_userns` set and its `open`,
`setns(CLONE_NEWUSER)` and `close` succeeding, the routine joins the
user namespace (the trace holds a successful `setns`) and then returns to
its caller. -/
theorem C1_returns_after_user_switch :
    (exec userOnlyWorld).outcome = Outcome.Returned ∧
    (exec userOnlyWorld).trace =
      [Event.open NsRef.user "/proc/1234/ns/user" O_RDONLY 3,
        Event.setns 3 CLONE_NEWUSER 0, Event.close 3 0] ∧
    (∃ e ∈ (exec userOnlyWorld).trace, e.switched = true) := by
  decide

/-- C2: the routine ends the process with status 66 exactly when an `open` or
`setns` it makes fails, and never with another status. When it does, the trace
splits at the first failing call: no call before it failed, no `open` or
`setns` follows it, exactly one diagnostic goes to standard error and it
contains the reference of the failing call's kind (user reference for the user
step, mount reference for the mount step), and nothing goes to standard
output. A failure in the user step leaves the trace without any call of the
mount kind. -/
theorem C2_exit_66 (w : World) :
    (∀ c, (exec w).outcome = Outcome.Exited c → c = 66) ∧
    ((exec w).outcome = Outcome.Exited 66 ↔ ∃ e ∈ (exec w).trace, e.failed = true) ∧
    ((exec w).outcome = Outcome.Exited 66 →
      ∃ pre e post nk ref diag,
        (exec w).trace = pre ++ e :: post ∧ e.failed = true ∧
        (∀ x ∈ pre, x.failed = false) ∧
        (∀ x ∈ post, x.isOpen = false ∧ x.isSetns = false) ∧
        e.kind = some nk ∧ w.reference nk = some ref ∧
        writes STDERR_FILENO (exec w).trace = [diag] ∧
        ref.data <:+: diag.data ∧
        writes STDOUT_FILENO (exec w).trace = []) ∧
    ((∃ e ∈ (exec w).trace, e.failed = true ∧ e.kind = some NsRef.user) →
      ∀ x ∈ (exec w).trace, x.kind ≠ some NsRef.mnt) := by
  have h := exec_shape w
  generalize exec w = r at h
  cases h with
  | userOpenFail u hu e h0 =>
    refine ⟨fun c hc => by simpa using hc.symm, ⟨fun _ => ?_, fun _ => rfl⟩, fun _ => ?_, fun _ => ?_⟩
    · exact ⟨_, List.mem_cons_self _ _, by simp [Event.failed]⟩
    · refine ⟨[], _, _, NsRef.user, u,
        "package mntnssandbox: invalid user namespace reference \""
          ++ u ++ "\": " ++ w.strerror e ++ "\n", rfl, by simp [Event.failed], by simp,
        by simp [Event.isOpen, Event.isSetns], rfl, hu.1, ?_, diag_infix _ _ _ _ _, ?_⟩
      · simp [writes]
      · simp [writes, STDOUT_FILENO, STDERR_FILENO]
    · simp [Event.kind]
  | userSetnsFail u hu fd e h0 h1 =>
    refine ⟨fun c hc => by simpa using hc.symm, ⟨fun _ => ?_, fun _ => rfl⟩, fun _ => ?_, fun _ => ?_⟩
    · exact ⟨Event.setns fd CLONE_NEWUSER (-1), by simp, by simp [Event.failed]⟩
    · refine ⟨[_], Event.setns fd CLONE_NEWUSER (-1), _, NsRef.user, u,
        "package gons: cannot join user namespace using reference \""
          ++ u ++ "\": " ++ w.strerror ((w.sys 2).errnoAfter e) ++ "\n", rfl,
        by simp [Event.failed], by simp [Event.failed],
        by simp [Event.isOpen, Event.isSetns], by simp [Event.kind], hu.1, ?_,
        diag_infix _ _ _ _ _, ?_⟩
      · simp [writes]
      · simp [writes, STDOUT_FILENO, STDERR_FILENO]
    · simp [Event.kind, CLONE_NEWNS, CLONE_NEWUSER]
  | returned pre k e0 hp hm =>
    refine ⟨fun c hc => by simp at hc, ⟨fun hc => by simp at hc, ?_⟩,
      fun hc => by simp at hc, fun _ => userPhase_no_mnt_kind w pre k e0 hp⟩
    rintro ⟨x, hx, hf⟩
    rw [userPhase_no_failed w pre k e0 hp x hx] at hf
    cases hf
  | mntOpenFail pre k e0 hp m hm e h0 =>
    refine ⟨fun c hc => by simpa using hc.symm, ⟨fun _ => ?_, fun _ => rfl⟩, fun _ => ?_, ?_⟩
    · exact ⟨Event.open NsRef.mnt m O_RDONLY (-1), by simp, by simp [Event.failed]⟩
    · refine ⟨pre, Event.open NsRef.mnt m O_RDONLY (-1), _, NsRef.mnt, m,
        "package mntnssandbox: invalid mount namespace reference \""
          ++ m ++ "\": " ++ w.strerror e ++ "\n", rfl,
        by simp [Event.failed], userPhase_no_failed w pre k e0 hp,
        by simp [Event.isOpen, Event.isSetns], rfl, hm.1, ?_, diag_infix _ _ _ _ _, ?_⟩
      · simp only [writes_append, userPhase_writes w pre k e0 _ hp]
        simp [writes]
      · simp only [writes_append, userPhase_writes w pre k e0 _ hp]
        simp [writes, STDOUT_FILENO, STDERR_FILENO]
    · rintro ⟨x, hx, hf⟩
      simp only [List.mem_append] at hx
      rcases hx with hx | hx
      · exact (userPhase_no_user_fail w pre k e0 hp x hx hf).elim
      · simp at hx
        rcases hx with rfl | rfl | rfl <;> simp [Event.kind, Event.failed] at hf
  | mntSetnsFail pre k e0 hp m hm fd e h0 h1 =>
    refine ⟨fun c hc => by simpa using hc.symm, ⟨fun _ => ?_, fun _ => rfl⟩, fun _ => ?_, ?_⟩
    · exact ⟨Event.setns fd CLONE_NEWNS (-1), by simp, by simp [Event.failed]⟩
    · refine ⟨pre ++ [Event.open NsRef.mnt m O_RDONLY fd],
        Event.setns fd CLONE_NEWNS (-1),
        [Event.close fd (w.sys (k + 2)).ret,
          Event.dprintf STDERR_FILENO
            ("package gons: cannot join mount namespace using reference \""
              ++ m ++ "\": " ++ w.strerror ((w.sys (k + 2)).errnoAfter e) ++ "\n"),
          Event.exit 66], NsRef.mnt, m,
        "package gons: cannot join mount namespace using reference \""
          ++ m ++ "\": " ++ w.strerror ((w.sys (k + 2)).errnoAfter e) ++ "\n", by simp,
        by simp [Event.failed], ?_,
        by simp [Event.isOpen, Event.isSetns],
        by simp [Event.kind, CLONE_NEWNS, CLONE_NEWUSER], hm.1, ?_,
        diag_infix _ _ _ _ _, ?_⟩
      · intro x hx
        simp only [List.mem_append, List.mem_singleton] at hx
        rcases hx with hx | rfl
        · exact userPhase_no_failed w pre k e0 hp x hx
        · simp [Event.failed]
      · simp only [writes_append, userPhase_writes w pre k e0 _ hp]
        simp [writes]
      · simp only [writes_append, userPhase_writes w pre k e0 _ hp]
        simp [writes, STDOUT_FILENO, STDERR_FILENO]
    · rintro ⟨x, hx, hf⟩
      simp only [List.mem_append] at hx
      rcases hx with hx | hx
      · exact (userPhase_no_user_fail w pre k e0 hp x hx hf).elim
      · simp at hx
        rcases hx with rfl | rfl | rfl | rfl | rfl <;>
          simp [Event.kind, Event.failed, CLONE_NEWNS, CLONE_NEWUSER] at hf
  | parked pre k e0 hp m hm fd v h0 h1 =>
    refine ⟨fun c hc => by simp at hc, ⟨fun hc => by simp at hc, ?_⟩,
      fun hc => by simp at hc, ?_⟩
    · rintro ⟨x, hx, hf⟩
      simp only [List.mem_append] at hx
      rcases hx with (hx | hx) | hx
      · rw [userPhase_no_failed w pre k e0 hp x hx] at hf
        cases hf
      · simp at hx
        rcases hx with rfl | rfl | rfl | rfl <;>
          simp [Event.failed, natCast_not_neg] at hf
      · rw [(List.mem_replicate.mp hx).2] at hf
        simp [Event.failed] at hf
    · rintro ⟨x, hx, hf⟩
      simp only [List.mem_append] at hx
      rcases hx with (hx | hx) | hx
      · exact (userPhase_no_user_fail w pre k e0 hp x hx hf).elim
      · simp at hx
        rcases hx with rfl | rfl | rfl | rfl <;>
          simp [Event.failed, natCast_not_neg] at hf
      · rw [(List.mem_replicate.mp hx).2] at hf
        simp [Event.failed] at hf

/-- C2 on a mount reference that does not exist: status 66, the path in the
one diagnostic, nothing on standard output. -/
theorem C2_exit_66_witness :
    (exec missingMntWorld).outcome = Outcome.Exited 66 ∧
    writes STDERR_FILENO (exec missingMntWorld).trace =
      ["package mntnssandbox: invalid mount namespace reference \"/no/such/ns\": No such file or directory\n"] ∧
    ∃ pre e post nk ref diag,
      (exec missingMntWorld).trace = pre ++ e :: post ∧ e.failed = true ∧
      (∀ x ∈ pre, x.failed = false) ∧
      (∀ x ∈ post, x.isOpen = false ∧ x.isSetns = false) ∧
      e.kind = some nk ∧ missingMntWorld.reference nk = some ref ∧
      writes STDERR_FILENO (exec missingMntWorld).trace = [diag] ∧
      ref.data <:+: diag.data ∧
      writes STDOUT_FILENO (exec missingMntWorld).trace = [] :=
  ⟨by decide, by decide, (C2_exit_66 missingMntWorld).2.2.1 (by decide)⟩

/-- C3: standard output receives exactly `"OK\n"`, written by one `dprintf`,
exactly when the mount switch took place (`sleepy_mntns` non-empty, its `open`
and its `setns(CLONE_NEWNS)` succeeded); in every other case it receives
nothing. When the mount switch took place the user step had let control
through and the routine is parked. With both references requested and the two
`open` and two `setns` calls succeeding, standard output is `"OK\n"` and the
outcome is `Parked`. -/
theorem C3_stdout_ok_iff (w : World) :
    (writes STDOUT_FILENO (exec w).trace = ["OK\n"] ↔ mntJoined w (exec w).trace) ∧
    (output STDOUT_FILENO (exec w).trace = "OK\n" ↔ mntJoined w (exec w).trace) ∧
    (¬ mntJoined w (exec w).trace →
      writes STDOUT_FILENO (exec w).trace = [] ∧
      output STDOUT_FILENO (exec w).trace = "") ∧
    (mntJoined w (exec w).trace →
      userStepPassed w (exec w).trace ∧ (exec w).outcome = Outcome.Parked) ∧
    (∀ u m fd1 v1 fd2 v2, requested (w.getenv USER_ENVVAR) u →
      requested (w.getenv MNT_ENVVAR) m →
      w.sys 0 = SysRet.ok fd1 → w.sys 1 = SysRet.ok v1 →
      w.sys 3 = SysRet.ok fd2 → w.sys 4 = SysRet.ok v2 →
      output STDOUT_FILENO (exec w).trace = "OK\n" ∧
      (exec w).outcome = Outcome.Parked) := by
  have h := exec_shape w
  generalize exec w = r at h
  have key : ∀ r : Result, writes STDOUT_FILENO r.trace = [] →
      ¬ mntJoined w r.trace → r.outcome ≠ Outcome.Parked →
      (writes STDOUT_FILENO r.trace = ["OK\n"] ↔ mntJoined w r.trace) ∧
      (output STDOUT_FILENO r.trace = "OK\n" ↔ mntJoined w r.trace) ∧
      (¬ mntJoined w r.trace →
        writes STDOUT_FILENO r.trace = [] ∧ output STDOUT_FILENO r.trace = "") ∧
      (mntJoined w r.trace →
        userStepPassed w r.trace ∧ r.outcome = Outcome.Parked) := by
    intro r hw hn _
    refine ⟨⟨fun h => ?_, fun h => (hn h).elim⟩, ⟨fun h => ?_, fun h => (hn h).elim⟩,
      fun _ => ⟨hw, output_nil _ _ hw⟩, fun h => (hn h).elim⟩
    · rw [hw] at h
      cases h
    · rw [output_nil _ _ hw] at h
      exact absurd h (by decide)
  cases h with
  | userOpenFail u hu e h0 =>
    refine ⟨(key _ ?_ ?_ ?_).1, (key _ ?_ ?_ ?_).2.1, (key _ ?_ ?_ ?_).2.2.1,
      (key _ ?_ ?_ ?_).2.2.2, ?_⟩
    all_goals first
      | (simp [writes, STDOUT_FILENO, STDERR_FILENO]; done)
      | (rintro ⟨m, fd, r, -, -, -, -, hs⟩; simp at hs)
      | (intro u m fd1 v1 fd2 v2 _ _ h0' _ _ _
         rw [h0] at h0'
         cases h0')
  | userSetnsFail u hu fd e h0 h1 =>
    refine ⟨(key _ ?_ ?_ ?_).1, (key _ ?_ ?_ ?_).2.1, (key _ ?_ ?_ ?_).2.2.1,
      (key _ ?_ ?_ ?_).2.2.2, ?_⟩
    all_goals first
      | (simp [writes, STDOUT_FILENO, STDERR_FILENO]; done)
      | (rintro ⟨m, fd, r, -, -, -, -, hs⟩; simp [CLONE_NEWNS, CLONE_NEWUSER] at hs)
      | (intro u m fd1 v1 fd2 v2 _ _ _ h1' _ _
         rw [h1] at h1'
         cases h1')
  | returned pre k e0 hp hm =>
    refine ⟨(key _ ?_ ?_ ?_).1, (key _ ?_ ?_ ?_).2.1, (key _ ?_ ?_ ?_).2.2.1,
      (key _ ?_ ?_ ?_).2.2.2, ?_⟩
    all_goals first
      | exact userPhase_writes w pre k e0 _ hp
      | (simp; done)
      | (rintro ⟨m, fd, r, hm2, -, -, -, hs⟩; exact (not_both _ _ hm hm2).elim)
      | (intro u m fd1 v1 fd2 v2 _ hm2 _ _ _ _
         exact (not_both _ _ hm hm2).elim)
  | mntOpenFail pre k e0 hp m hm e h0 =>
    refine ⟨(key _ ?_ ?_ ?_).1, (key _ ?_ ?_ ?_).2.1, (key _ ?_ ?_ ?_).2.2.1,
      (key _ ?_ ?_ ?_).2.2.2, ?_⟩
    all_goals first
      | (simp [writes_append, userPhase_writes w pre k e0 _ hp]
         simp [writes, STDOUT_FILENO, STDERR_FILENO]; done)
      | (simp; done)
      | (rintro ⟨m, fd, r, -, -, -, -, hs⟩
         simp [userPhase_no_mnt_setns w pre k e0 hp] at hs)
      | (intro u m fd1 v1 fd2 v2 hu _ h0' _ h3' _
         cases hp with
         | skipped hu2 => exact (not_both _ _ hu2 hu).elim
         | joined _ _ _ _ _ _ =>
           rw [h0] at h3'
           cases h3')
  | mntSetnsFail pre k e0 hp m hm fd e h0 h1 =>
    refine ⟨(key _ ?_ ?_ ?_).1, (key _ ?_ ?_ ?_).2.1, (key _ ?_ ?_ ?_).2.2.1,
      (key _ ?_ ?_ ?_).2.2.2, ?_⟩
    all_goals first
      | (simp [writes_append, userPhase_writes w pre k e0 _ hp]
         simp [writes, STDOUT_FILENO, STDERR_FILENO]; done)
      | (simp; done)
      | (rintro ⟨m, fd, r, -, -, hr, -, hs⟩
         simp [userPhase_no_mnt_setns w pre k e0 hp] at hs
         omega)
      | (intro u m fd1 v1 fd2 v2 hu _ h0' _ h3' h4'
         cases hp with
         | skipped hu2 => exact (not_both _ _ hu2 hu).elim
         | joined _ _ _ _ _ _ =>
           rw [h1] at h4'
           cases h4')
  | parked pre k e0 hp m hm fd v h0 h1 =>
    have hw : writes STDOUT_FILENO
        (pre ++ [Event.open NsRef.mnt m O_RDONLY fd, Event.setns fd CLONE_NEWNS v,
          Event.close fd (w.sys (k + 2)).ret, Event.dprintf STDOUT_FILENO "OK\n"]
          ++ List.replicate (w.wakeups + 1) Event.pause) = ["OK\n"] := by
      simp only [writes_append, userPhase_writes w pre k e0 _ hp, writes_pauses]
      simp [writes]
    have hj : mntJoined w
        (pre ++ [Event.open NsRef.mnt m O_RDONLY fd, Event.setns fd CLONE_NEWNS v,
          Event.close fd (w.sys (k + 2)).ret, Event.dprintf STDOUT_FILENO "OK\n"]
          ++ List.replicate (w.wakeups + 1) Event.pause) :=
      ⟨m, fd, v, hm, by simp, by simp, by simp, by simp⟩
    refine ⟨⟨fun _ => hj, fun _ => hw⟩, ⟨fun _ => hj, fun _ => output_single _ _ _ hw⟩,
      fun h => (h hj).elim, fun _ => ⟨?_, rfl⟩, fun _ _ _ _ _ _ _ _ _ _ _ _ =>
        ⟨output_single _ _ _ hw, rfl⟩⟩
    rw [List.append_assoc]
    exact userPhase_passed w pre k e0 hp _

/-- C3 on a run with both references set and every call succeeding. -/
theorem C3_stdout_ok_iff_witness :
    output STDOUT_FILENO
      (exec (calmWorld (some "/proc/1234/ns/user") (some "/proc/1234/ns/mnt") 2)).trace
      = "OK\n" ∧
    (exec (calmWorld (some "/proc/1234/ns/user") (some "/proc/1234/ns/mnt") 2)).outcome
      = Outcome.Parked :=
  (C3_stdout_ok_iff
    (calmWorld (some "/proc/1234/ns/user") (some "/proc/1234/ns/mnt") 2)).2.2.2.2
    "/proc/1234/ns/user" "/proc/1234/ns/mnt" 3 0 3 0
    ⟨by decide, by decide⟩ ⟨by decide, by decide⟩
    (by decide) (by decide) (by decide) (by decide)

/-- C4: the routine returns to its caller exactly when control reaches the
mount step (user reference not requested, or its `open` and
`setns(CLONE_NEWUSER)` both succeeded) and `sleepy_mntns` is unset or empty.
On that path nothing is written to standard output or standard error and no
`open` or `setns` of the mount kind is made. On every other path the outcome
is `Exited 66` or `Parked`. -/
theorem C4_returns_iff (w : World) :
    ((exec w).outcome = Outcome.Returned ↔
      userStepPassed w (exec w).trace ∧ notRequested (w.getenv MNT_ENVVAR)) ∧
    ((exec w).outcome = Outcome.Returned →
      writes STDOUT_FILENO (exec w).trace = [] ∧
      writes STDERR_FILENO (exec w).trace = [] ∧
      ∀ e ∈ (exec w).trace, e.kind ≠ some NsRef.mnt) ∧
    ((exec w).outcome ≠ Outcome.Returned →
      (exec w).outcome = Outcome.Exited 66 ∨ (exec w).outcome = Outcome.Parked) := by
  have h := exec_shape w
  generalize exec w = r at h
  cases h with
  | userOpenFail u hu e h0 =>
    refine ⟨⟨fun h => by simp at h, ?_⟩, fun h => by simp at h, fun _ => Or.inl rfl⟩
    rintro ⟨hp | ⟨u2, fd, r, hu2, hfd, hr, ho, hs⟩, hm⟩
    · exact (not_both _ _ hp hu).elim
    · simp at hs
  | userSetnsFail u hu fd e h0 h1 =>
    refine ⟨⟨fun h => by simp at h, ?_⟩, fun h => by simp at h, fun _ => Or.inl rfl⟩
    rintro ⟨hp | ⟨u2, fd2, r, hu2, hfd, hr, ho, hs⟩, hm⟩
    · exact (not_both _ _ hp hu).elim
    · simp at hs
      omega
  | returned pre k e0 hp hm =>
    refine ⟨⟨fun _ => ⟨?_, hm⟩, fun _ => rfl⟩, fun _ => ?_, fun h => by simp at h⟩
    · cases hp with
      | skipped hu => exact Or.inl hu
      | joined u hu fd v h0 h1 =>
        exact Or.inr ⟨u, fd, v, hu, by simp, by simp, by simp, by simp⟩
    · cases hp with
      | skipped hu => simp [writes]
      | joined u hu fd v h0 h1 =>
        simp [writes, Event.kind, CLONE_NEWUSER, CLONE_NEWNS]
  | mntOpenFail pre k e0 hp m hm e h0 =>
    refine ⟨⟨fun h => by simp at h, ?_⟩, fun h => by simp at h, fun _ => Or.inl rfl⟩
    rintro ⟨-, hm2⟩
    exact (not_both _ _ hm2 hm).elim
  | mntSetnsFail pre k e0 hp m hm fd e h0 h1 =>
    refine ⟨⟨fun h => by simp at h, ?_⟩, fun h => by simp at h, fun _ => Or.inl rfl⟩
    rintro ⟨-, hm2⟩
    exact (not_both _ _ hm2 hm).elim
  | parked pre k e0 hp m hm fd v h0 h1 =>
    refine ⟨⟨fun h => by simp at h, ?_⟩, fun h => by simp at h, fun _ => Or.inr rfl⟩
    rintro ⟨-, hm2⟩
    exact (not_both _ _ hm2 hm).elim

/-- C4 on a run that only joins a user namespace. -/
theorem C4_returns_iff_witness :
    (exec userOnlyWorld).outcome = Outcome.Returned ∧
    (userStepPassed userOnlyWorld (exec userOnlyWorld).trace ∧
      notRequested (userOnlyWorld.getenv MNT_ENVVAR)) ∧
    writes STDERR_FILENO (exec userOnlyWorld).trace = [] :=
  ⟨by decide, (C4_returns_iff userOnlyWorld).1.mp (by decide),
    ((C4_returns_iff userOnlyWorld).2.1 (by decide)).2.1⟩

/-- C5: when neither reference is set (each variable unset or empty), the
routine returns, writes nothing to standard output or standard error, and makes
no call at all: no `open`, `setns`, `close`, `pause` or `exit`. -/
theorem C5_nothing_requested (w : World)
    (hu : notRequested (w.getenv USER_ENVVAR))
    (hm : notRequested (w.getenv MNT_ENVVAR)) :
    (exec w).outcome = Outcome.Returned ∧
    writes STDOUT_FILENO (exec w).trace = [] ∧
    writes STDERR_FILENO (exec w).trace = [] ∧
    (∀ e ∈ (exec w).trace,
      e.isOpen = false ∧ e.isSetns = false ∧ e.isClose = false ∧
      e.isPause = false ∧ e.isExit = false) ∧
    (exec w).trace = [] := by
  have h := exec_shape w
  generalize exec w = r at h
  cases h with
  | userOpenFail u hu2 => exact (not_both _ _ hu hu2).elim
  | userSetnsFail u hu2 => exact (not_both _ _ hu hu2).elim
  | returned pre k e0 hp hm2 =>
    cases hp with
    | skipped => simp [writes]
    | joined u hu2 => exact (not_both _ _ hu hu2).elim
  | mntOpenFail pre k e0 hp m hm2 => exact (not_both _ _ hm hm2).elim
  | mntSetnsFail pre k e0 hp m hm2 => exact (not_both _ _ hm hm2).elim
  | parked pre k e0 hp m hm2 => exact (not_both _ _ hm hm2).elim

/-- C5 at the four combinations of unset and empty. -/
theorem C5_nothing_requested_witness :
    (notRequested ((calmWorld none (some "") 0).getenv USER_ENVVAR) ∧
      notRequested ((calmWorld none (some "") 0).getenv MNT_ENVVAR)) ∧
    (exec (calmWorld none (some "") 0)).outcome = Outcome.Returned ∧
    (exec (calmWorld none (some "") 0)).trace = [] ∧
    (exec (calmWorld (some "") none 0)).trace = [] ∧
    (exec (calmWorld (some "") (some "") 0)).trace = [] ∧
    (exec (calmWorld none none 0)).trace = [] :=
  have h1 : notRequested ((calmWorld none (some "") 0).getenv USER_ENVVAR) := Or.inl (by decide)
  have h2 : notRequested ((calmWorld none (some "") 0).getenv MNT_ENVVAR) := Or.inr (by decide)
  have h3 : notRequested ((calmWorld (some "") none 0).getenv USER_ENVVAR) := Or.inr (by decide)
  have h4 : notRequested ((calmWorld (some "") none 0).getenv MNT_ENVVAR) := Or.inl (by decide)
  have h5 : notRequested ((calmWorld (some "") (some "") 0).getenv USER_ENVVAR) := Or.inr (by decide)
  have h6 : notRequested ((calmWorld (some "") (some "") 0).getenv MNT_ENVVAR) := Or.inr (by decide)
  have h7 : notRequested ((calmWorld none none 0).getenv USER_ENVVAR) := Or.inl (by decide)
  have h8 : notRequested ((calmWorld none none 0).getenv MNT_ENVVAR) := Or.inl (by decide)
  ⟨⟨h1, h2⟩, (C5_nothing_requested _ h1 h2).1, (C5_nothing_requested _ h1 h2).2.2.2.2,
    (C5_nothing_requested _ h3 h4).2.2.2.2, (C5_nothing_requested _ h5 h6).2.2.2.2,
    (C5_nothing_requested _ h7 h8).2.2.2.2⟩

/-- C6: in the trace every call of the user kind (`open` of the user
reference, `setns` with `CLONE_NEWUSER`) comes strictly before every call of
the mount kind (`open` of the mount reference, `setns` with `CLONE_NEWNS`);
and a `setns(CLONE_NEWNS)` is in the trace only if the user reference is not
requested or a `setns(CLONE_NEWUSER)` succeeded earlier in the trace. -/
theorem C6_user_before_mnt (w : World) :
    (∀ (i j : Nat) (e1 e2 : Event),
      (exec w).trace[i]? = some e1 → (exec w).trace[j]? = some e2 →
      e1.kind = some NsRef.user → e2.kind = some NsRef.mnt → i < j) ∧
    (∀ (j : Nat) (fd r : Int),
      (exec w).trace[j]? = some (Event.setns fd CLONE_NEWNS r) →
      notRequested (w.getenv USER_ENVVAR) ∨
      ∃ (i : Nat) (fd1 r1 : Int), i < j ∧
        (exec w).trace[i]? = some (Event.setns fd1 CLONE_NEWUSER r1) ∧ 0 ≤ r1) := by
  have h := exec_shape w
  generalize exec w = r at h
  have later : ∀ (pre : List Event) (k e0 : Nat), UserPhase w pre k e0 →
      ∀ (rest : List Event) (j : Nat) (fd r : Int),
      (pre ++ rest)[j]? = some (Event.setns fd CLONE_NEWNS r) →
      notRequested (w.getenv USER_ENVVAR) ∨
      ∃ (i : Nat) (fd1 r1 : Int), i < j ∧
        (pre ++ rest)[i]? = some (Event.setns fd1 CLONE_NEWUSER r1) ∧ 0 ≤ r1 := by
    intro pre k e0 hp rest j fd r hj
    cases hp with
    | skipped hu => exact Or.inl hu
    | joined u hu fd0 v h0 h1 =>
      refine Or.inr ⟨1, fd0, v, ?_, by simp, by simp⟩
      exact behind_second _ _ _ _ _ j hj (by simp)
        (by simp [CLONE_NEWNS, CLONE_NEWUSER])
  cases h with
  | userOpenFail u hu e h0 =>
    refine ⟨fun i j e1 e2 h1 h2 k1 k2 => ?_, fun j fd r hj => ?_⟩
    · have := List.getElem?_mem h2
      simp at this
      rcases this with rfl | rfl | rfl <;> simp [Event.kind] at k2
    · have := List.getElem?_mem hj
      simp at this
  | userSetnsFail u hu fd e h0 h1 =>
    refine ⟨fun i j e1 e2 h1 h2 k1 k2 => ?_, fun j fd r hj => ?_⟩
    · have := List.getElem?_mem h2
      simp at this
      rcases this with rfl | rfl | rfl | rfl | rfl <;>
        simp [Event.kind, CLONE_NEWNS, CLONE_NEWUSER] at k2
    · have := List.getElem?_mem hj
      simp [CLONE_NEWNS, CLONE_NEWUSER] at this
  | returned pre k e0 hp hm =>
    refine ⟨fun i j e1 e2 h1 h2 k1 k2 => ?_, fun j fd r hj => ?_⟩
    · exact (userPhase_no_mnt_kind w pre k e0 hp e2 (List.getElem?_mem h2) k2).elim
    · exact (userPhase_no_mnt_setns w pre k e0 hp fd r (List.getElem?_mem hj)).elim
  | mntOpenFail pre k e0 hp m hm e h0 =>
    refine ⟨fun i j e1 e2 h1 h2 k1 k2 => ?_, fun j fd r hj => later pre k e0 hp _ j fd r hj⟩
    exact ordered_of_split _ _ (userPhase_no_mnt_kind w pre k e0 hp)
      (by simp [Event.kind]) i j e1 e2 h1 h2 k1 k2
  | mntSetnsFail pre k e0 hp m hm fd e h0 h1 =>
    refine ⟨fun i j e1 e2 h1 h2 k1 k2 => ?_, fun j fd r hj => later pre k e0 hp _ j fd r hj⟩
    exact ordered_of_split _ _ (userPhase_no_mnt_kind w pre k e0 hp)
      (by simp [Event.kind, CLONE_NEWNS, CLONE_NEWUSER]) i j e1 e2 h1 h2 k1 k2
  | parked pre k e0 hp m hm fd v h0 h1 =>
    refine ⟨fun i j e1 e2 h1 h2 k1 k2 => ?_, fun j fd r hj => ?_⟩
    · simp only [List.append_assoc] at h1 h2
      refine ordered_of_split _ _ (userPhase_no_mnt_kind w pre k e0 hp) ?_ i j e1 e2 h1 h2 k1 k2
      intro x hx
      simp only [List.mem_append, List.mem_replicate] at hx
      rcases hx with hx | ⟨-, rfl⟩
      · simp at hx
        rcases hx with rfl | rfl | rfl | rfl <;>
          simp [Event.kind, CLONE_NEWNS, CLONE_NEWUSER]
      · simp [Event.kind]
    · simp only [List.append_assoc] at hj ⊢
      exact later pre k e0 hp _ j fd r hj

/-- C6 on a run with both references set and every call succeeding: the
`setns(CLONE_NEWUSER)` sits at position 1, the `setns(CLONE_NEWNS)` at
position 4. -/
theorem C6_user_before_mnt_witness :
    (exec (calmWorld (some "/u") (some "/m") 0)).trace[1]? =
      some (Event.setns 3 CLONE_NEWUSER 0) ∧
    (exec (calmWorld (some "/u") (some "/m") 0)).trace[4]? =
      some (Event.setns 3 CLONE_NEWNS 0) ∧
    (1 : Nat) < 4 ∧
    (notRequested ((calmWorld (some "/u") (some "/m") 0).getenv USER_ENVVAR) ∨
      ∃ (i : Nat) (fd1 r1 : Int), i < 4 ∧
        (exec (calmWorld (some "/u") (some "/m") 0)).trace[i]? =
          some (Event.setns fd1 CLONE_NEWUSER r1) ∧ 0 ≤ r1) :=
  ⟨by decide, by decide,
    (C6_user_before_mnt (calmWorld (some "/u") (some "/m") 0)).1 1 4 _ _
      (by decide : _ = some (Event.setns 3 CLONE_NEWUSER 0))
      (by decide : _ = some (Event.setns 3 CLONE_NEWNS 0)) (by decide) (by decide),
    (C6_user_before_mnt (calmWorld (some "/u") (some "/m") 0)).2 4 3 0 (by decide)⟩

/-- C7: every successful `open` is directly followed in the trace by one
`setns` on the descriptor it returned and then by a `close` of that
descriptor, whatever the `setns` returned; after every prefix of the trace at
most one descriptor opened by the routine is still open; and at the end of the
run, whatever the outcome, none is. -/
theorem C7_descriptors (w : World) :
    (∀ (pre post : List Event) (ref : NsRef) (path : String) (fl : Nat) (fd : Int),
      (exec w).trace = pre ++ Event.open ref path fl fd :: post → 0 ≤ fd →
      ∃ ty r c rest, post = Event.setns fd ty r :: Event.close fd c :: rest) ∧
    (∀ pre, pre <+: (exec w).trace → (openFds pre).length ≤ 1) ∧
    openFds (exec w).trace = [] :=
  ⟨bracketed_follow _ (exec_bracketed w), bracketed_prefix _ (exec_bracketed w),
    bracketed_openFds _ (exec_bracketed w)⟩

/-- C7 on a run whose `setns` fails: the descriptor is closed all the same. -/
theorem C7_descriptors_witness :
    (exec clobberWorld).trace =
      [] ++ Event.open NsRef.user "/proc/1234/ns/user" O_RDONLY 3 ::
        (exec clobberWorld).trace.tail ∧
    (∃ ty r c rest, (exec clobberWorld).trace.tail =
      Event.setns 3 ty r :: Event.close 3 c :: rest) ∧
    (openFds [Event.open NsRef.user "/proc/1234/ns/user" O_RDONLY 3]).length ≤ 1 ∧
    openFds (exec clobberWorld).trace = [] :=
  ⟨by decide,
    (C7_descriptors clobberWorld).1 [] _ NsRef.user "/proc/1234/ns/user" O_RDONLY 3
      (by decide) (by decide),
    (C7_descriptors clobberWorld).2.1 _ ⟨(exec clobberWorld).trace.tail, by decide⟩,
    (C7_descriptors clobberWorld).2.2⟩

/-- C8, evaluated on the code: the user `setns` fails with error 1
("Operation not permitted"), the `close` that follows fails with error 5, and
the diagnostic carries the text of error 5, the error of the `close`, not that
of the failed `setns`. -/
theorem C8_close_overwrites_errno :
    clobberWorld.sys 1 = SysRet.fail 1 ∧
    clobberWorld.sys 2 = SysRet.fail 5 ∧
    clobberWorld.strerror 1 = "Operation not permitted" ∧
    clobberWorld.strerror 5 = "Input/output error" ∧
    (exec clobberWorld).trace =
      [Event.open NsRef.user "/proc/1234/ns/user" O_RDONLY 3,
        Event.setns 3 CLONE_NEWUSER (-1),
        Event.close 3 (-1),
        Event.dprintf STDERR_FILENO
          "package gons: cannot join user namespace using reference \"/proc/1234/ns/user\": Input/output error\n",
        Event.exit 66] ∧
    (exec clobberWorld).outcome = Outcome.Exited 66 := by
  decide

/-- C9: the trace holds at most one `setns` per namespace kind and at most
one `open` per reference. When the user reference is not requested, the mount
reference is requested and the kernel lets its `open` succeed with descriptor
`fd`, the trace holds no `open` of the user reference and no
`setns(CLONE_NEWUSER)`, exactly one `open`, which is the read-only `open` of
the mount reference, and exactly one `setns`, which is the
`setns(fd, CLONE_NEWNS)`; and if the kernel lets that `setns` succeed the
outcome is `Parked` after exactly one `"OK\n"` on standard output. The same
holds with the two successes read off the trace. -/
theorem C9_at_most_once (w : World) :
    List.countP (Event.isSetnsOf CLONE_NEWUSER) (exec w).trace ≤ 1 ∧
    List.countP (Event.isSetnsOf CLONE_NEWNS) (exec w).trace ≤ 1 ∧
    List.countP (Event.isOpenOf NsRef.user) (exec w).trace ≤ 1 ∧
    List.countP (Event.isOpenOf NsRef.mnt) (exec w).trace ≤ 1 ∧
    (∀ (m : String) (fd : Nat),
      notRequested (w.getenv USER_ENVVAR) → requested (w.getenv MNT_ENVVAR) m →
      w.sys 0 = SysRet.ok fd →
      List.countP (Event.isOpenOf NsRef.user) (exec w).trace = 0 ∧
      List.countP (Event.isSetnsOf CLONE_NEWUSER) (exec w).trace = 0 ∧
      List.countP Event.isOpen (exec w).trace = 1 ∧
      Event.open NsRef.mnt m O_RDONLY fd ∈ (exec w).trace ∧
      List.countP Event.isSetns (exec w).trace = 1 ∧
      List.countP (Event.isSetnsOf CLONE_NEWNS) (exec w).trace = 1 ∧
      Event.setns fd CLONE_NEWNS (w.sys 1).ret ∈ (exec w).trace ∧
      (∀ v : Nat, w.sys 1 = SysRet.ok v →
        (exec w).outcome = Outcome.Parked ∧
        writes STDOUT_FILENO (exec w).trace = ["OK\n"])) ∧
    (∀ m, notRequested (w.getenv USER_ENVVAR) → requested (w.getenv MNT_ENVVAR) m →
      (∃ fl fd, 0 ≤ fd ∧ Event.open NsRef.mnt m fl fd ∈ (exec w).trace) →
      List.countP (Event.isOpenOf NsRef.user) (exec w).trace = 0 ∧
      List.countP (Event.isSetnsOf CLONE_NEWUSER) (exec w).trace = 0 ∧
      List.countP Event.isOpen (exec w).trace = 1 ∧
      (∃ fd, Event.open NsRef.mnt m O_RDONLY fd ∈ (exec w).trace) ∧
      List.countP Event.isSetns (exec w).trace = 1 ∧
      List.countP (Event.isSetnsOf CLONE_NEWNS) (exec w).trace = 1 ∧
      ((∃ e ∈ (exec w).trace, e.switched = true) →
        (exec w).outcome = Outcome.Parked ∧
        writes STDOUT_FILENO (exec w).trace = ["OK\n"])) := by
  obtain ⟨c1, c2, c3, c4, c5⟩ := exec_counts w
  refine ⟨c1, c2, c3, c4, ?_, c5⟩
  intro m fd hu hm h0
  rcases h1 : w.sys 1 with v | e
  · rw [exec_mntOnly_parked w m fd v hu hm h0 h1]
    refine ⟨by simp [List.countP_cons, Event.isOpenOf, countP_pauses],
      by simp [List.countP_cons, Event.isSetnsOf, CLONE_NEWNS, CLONE_NEWUSER,
        countP_pauses],
      by simp [List.countP_cons, Event.isOpen, countP_pauses], by simp,
      by simp [List.countP_cons, Event.isSetns, countP_pauses],
      by simp [List.countP_cons, Event.isSetnsOf, countP_pauses],
      by simp [SysRet.ret], fun _ _ => ⟨rfl, ?_⟩⟩
    simp only [writes_append, writes_pauses]
    simp [writes]
  · rw [exec_mntOnly_setnsFail w m fd e hu hm h0 h1]
    refine ⟨by simp [List.countP_cons, Event.isOpenOf],
      by simp [List.countP_cons, Event.isSetnsOf, CLONE_NEWNS, CLONE_NEWUSER],
      by simp [List.countP_cons, Event.isOpen], by simp,
      by simp [List.countP_cons, Event.isSetns],
      by simp [List.countP_cons, Event.isSetnsOf],
      by simp [SysRet.ret], fun v hv => by cases hv⟩

/-- C9 on a run with only the mount reference set and every call succeeding. -/
theorem C9_at_most_once_witness :
    List.countP Event.isOpen (exec (calmWorld none (some "/proc/1234/ns/mnt") 1)).trace = 1 ∧
    Event.open NsRef.mnt "/proc/1234/ns/mnt" O_RDONLY 3 ∈
      (exec (calmWorld none (some "/proc/1234/ns/mnt") 1)).trace ∧
    List.countP Event.isSetns (exec (calmWorld none (some "/proc/1234/ns/mnt") 1)).trace = 1 ∧
    (exec (calmWorld none (some "/proc/1234/ns/mnt") 1)).outcome = Outcome.Parked ∧
    writes STDOUT_FILENO (exec (calmWorld none (some "/proc/1234/ns/mnt") 1)).trace
      = ["OK\n"] :=
  have h := (C9_at_most_once (calmWorld none (some "/proc/1234/ns/mnt") 1)).2.2.2.2.1
    "/proc/1234/ns/mnt" 3 (Or.inl (by decide)) ⟨by decide, by decide⟩ (by decide)
  ⟨h.2.2.1, h.2.2.2.1, h.2.2.2.2.1, h.2.2.2.2.2.2.2 0 (by decide)⟩

/-- C10: lines 104-107 as a step relation in which a `pause` may return.
Every run of `gosandbox` either wrote nothing to standard output and is not
parked, or is parked and is the machine started at the marker with a state
that had written nothing, run through `w.wakeups` returns of `pause`. Whenever
the kernel lets the mount `open` and `setns(CLONE_NEWNS)` succeed (the user
reference not requested, or its `open` and `setns(CLONE_NEWUSER)` succeeding
before), then for every number `n` of returns of `pause` the run of
`gosandbox` is `Parked`, its trace is the calls of the switch, the marker and
`n + 1` calls of `pause`, it is the machine run of `2 * n + 2` steps from the
marker, and every machine state reachable from there is parked, neither
returned nor exited, with `"OK\n"` the only write to standard output, nothing
on standard error and no `open` or `setns` beyond those of the switch. On the
machine itself: writing the marker leads to the parked state, after any `n`
returns of `pause` the next step calls `pause` again, and from a parked state
only parked states are reachable, their traces the old trace followed by
`pause` calls only. -/
theorem C10_parked_forever :
    (∀ w : World,
      (writes STDOUT_FILENO (exec w).trace = [] ∧ (exec w).outcome ≠ Outcome.Parked) ∨
      ((exec w).outcome = Outcome.Parked ∧
        ∃ p : Proc, writes STDOUT_FILENO p.trace = [] ∧
          tailRun (2 * w.wakeups + 2) ⟨Ctl.atMarker, p⟩ =
            ⟨Ctl.inPause, ⟨(exec w).errno, p.nsys, (exec w).trace⟩⟩)) ∧
    (∀ (w : World) (n : Nat) (m : String) (fd v : Nat),
      notRequested (w.getenv USER_ENVVAR) → requested (w.getenv MNT_ENVVAR) m →
      w.sys 0 = SysRet.ok fd → w.sys 1 = SysRet.ok v →
      (exec (w.withWakeups n)).outcome = Outcome.Parked ∧
      (exec (w.withWakeups n)).trace =
        [Event.open NsRef.mnt m O_RDONLY fd, Event.setns fd CLONE_NEWNS v,
          Event.close fd (w.sys 2).ret, Event.dprintf STDOUT_FILENO "OK\n"]
          ++ List.replicate (n + 1) Event.pause ∧
      tailRun (2 * n + 2)
        ⟨Ctl.atMarker, ⟨(w.sys 2).errnoAfter w.errno0, 3,
          [Event.open NsRef.mnt m O_RDONLY fd, Event.setns fd CLONE_NEWNS v,
            Event.close fd (w.sys 2).ret]⟩⟩ =
        ⟨Ctl.inPause, ⟨(exec (w.withWakeups n)).errno, 3,
          (exec (w.withWakeups n)).trace⟩⟩ ∧
      ∀ d : Config, Relation.ReflTransGen TailStep
          ⟨Ctl.inPause, ⟨(exec (w.withWakeups n)).errno, 3,
            (exec (w.withWakeups n)).trace⟩⟩ d →
        d.parked ∧ d.ctl ≠ Ctl.returned ∧ (∀ code, d.ctl ≠ Ctl.exited code) ∧
        writes STDOUT_FILENO d.proc.trace = ["OK\n"] ∧
        writes STDERR_FILENO d.proc.trace = [] ∧
        d.proc.trace.filter (fun e => e.isOpen || e.isSetns) =
          [Event.open NsRef.mnt m O_RDONLY fd, Event.setns fd CLONE_NEWNS v]) ∧
    (∀ (w : World) (n : Nat) (u m : String) (fd1 v1 fd2 v2 : Nat),
      requested (w.getenv USER_ENVVAR) u → requested (w.getenv MNT_ENVVAR) m →
      w.sys 0 = SysRet.ok fd1 → w.sys 1 = SysRet.ok v1 →
      w.sys 3 = SysRet.ok fd2 → w.sys 4 = SysRet.ok v2 →
      (exec (w.withWakeups n)).outcome = Outcome.Parked ∧
      (exec (w.withWakeups n)).trace =
        [Event.open NsRef.user u O_RDONLY fd1, Event.setns fd1 CLONE_NEWUSER v1,
          Event.close fd1 (w.sys 2).ret,
          Event.open NsRef.mnt m O_RDONLY fd2, Event.setns fd2 CLONE_NEWNS v2,
          Event.close fd2 (w.sys 5).ret, Event.dprintf STDOUT_FILENO "OK\n"]
          ++ List.replicate (n + 1) Event.pause ∧
      tailRun (2 * n + 2)
        ⟨Ctl.atMarker, ⟨(w.sys 5).errnoAfter ((w.sys 2).errnoAfter w.errno0), 6,
          [Event.open NsRef.user u O_RDONLY fd1, Event.setns fd1 CLONE_NEWUSER v1,
            Event.close fd1 (w.sys 2).ret,
            Event.open NsRef.mnt m O_RDONLY fd2, Event.setns fd2 CLONE_NEWNS v2,
            Event.close fd2 (w.sys 5).ret]⟩⟩ =
        ⟨Ctl.inPause, ⟨(exec (w.withWakeups n)).errno, 6,
          (exec (w.withWakeups n)).trace⟩⟩ ∧
      ∀ d : Config, Relation.ReflTransGen TailStep
          ⟨Ctl.inPause, ⟨(exec (w.withWakeups n)).errno, 6,
            (exec (w.withWakeups n)).trace⟩⟩ d →
        d.parked ∧ d.ctl ≠ Ctl.returned ∧ (∀ code, d.ctl ≠ Ctl.exited code) ∧
        writes STDOUT_FILENO d.proc.trace = ["OK\n"] ∧
        writes STDERR_FILENO d.proc.trace = [] ∧
        d.proc.trace.filter (fun e => e.isOpen || e.isSetns) =
          [Event.open NsRef.user u O_RDONLY fd1, Event.setns fd1 CLONE_NEWUSER v1,
            Event.open NsRef.mnt m O_RDONLY fd2, Event.setns fd2 CLONE_NEWNS v2]) ∧
    (∀ p : Proc, TailStep ⟨Ctl.atMarker, p⟩
      ⟨Ctl.atLoop, p.emit (Event.dprintf STDOUT_FILENO "OK\n")⟩ ∧
      Config.parked ⟨Ctl.atLoop, p.emit (Event.dprintf STDOUT_FILENO "OK\n")⟩) ∧
    (∀ (n : Nat) (p : Proc),
      (Run.bind (c_dprintf STDOUT_FILENO "OK\n") (fun _ => pauseLoop n) : Run Unit) p =
        Step.stop Outcome.Parked (tailRun (2 * n + 2) ⟨Ctl.atMarker, p⟩).proc ∧
      (tailRun (2 * n + 2) ⟨Ctl.atMarker, p⟩).ctl = Ctl.inPause) ∧
    (∀ w : World, (exec w).outcome = Outcome.Parked →
      ∃ p : Proc,
        (tailRun (2 * w.wakeups + 2) ⟨Ctl.atMarker, p⟩).ctl = Ctl.inPause ∧
        (tailRun (2 * w.wakeups + 2) ⟨Ctl.atMarker, p⟩).proc.trace = (exec w).trace ∧
        (tailRun (2 * w.wakeups + 2) ⟨Ctl.atMarker, p⟩).proc.errno = (exec w).errno) ∧
    (∀ (n : Nat) (p : Proc), ∃ q : Proc,
      tailRun (2 * n) ⟨Ctl.atLoop, p⟩ = ⟨Ctl.atLoop, q⟩ ∧
      q.trace = p.trace ++ List.replicate n Event.pause ∧
      TailStep ⟨Ctl.atLoop, q⟩ ⟨Ctl.inPause, q.emit Event.pause⟩) ∧
    (∀ c d : Config, c.parked → Relation.ReflTransGen TailStep c d →
      d.parked ∧ d.ctl ≠ Ctl.returned ∧ (∀ code, d.ctl ≠ Ctl.exited code) ∧
      (∃ k, d.proc.trace = c.proc.trace ++ List.replicate k Event.pause) ∧
      writes STDOUT_FILENO d.proc.trace = writes STDOUT_FILENO c.proc.trace ∧
      writes STDERR_FILENO d.proc.trace = writes STDERR_FILENO c.proc.trace ∧
      d.proc.trace.filter (fun e => e.isOpen || e.isSetns) =
        c.proc.trace.filter (fun e => e.isOpen || e.isSetns)) := by
  refine ⟨?_, ?_, ?_, tail_facts⟩
  · intro w
    by_cases hpk : (exec w).outcome = Outcome.Parked
    · refine Or.inr ⟨hpk, ?_⟩
      have h := exec_shape w
      generalize exec w = r at h hpk
      cases h with
      | userOpenFail => simp at hpk
      | userSetnsFail => simp at hpk
      | returned => simp at hpk
      | mntOpenFail => simp at hpk
      | mntSetnsFail => simp at hpk
      | parked pre k e0 hp m hm fd v h0 h1 =>
        refine ⟨{ errno := (w.sys (k + 2)).errnoAfter e0, nsys := k + 3,
                  trace := pre ++ [Event.open NsRef.mnt m O_RDONLY fd,
                    Event.setns fd CLONE_NEWNS v, Event.close fd (w.sys (k + 2)).ret] },
          ?_, ?_⟩
        · simp only [writes_append, userPhase_writes w pre k e0 _ hp]
          simp [writes]
        · rw [tailRun_marker]
          simp
    · exact Or.inl ⟨stdout_nil_of_not_parked w hpk, hpk⟩
  · intro w n m fd v hu hm h0 h1
    have hx := exec_mntOnly_parked (w.withWakeups n) m fd v hu hm h0 h1
    obtain ⟨-, f2, f3, -, f5⟩ := withWakeups_fields w n
    rw [f2, f3, f5] at hx
    rw [hx]
    refine ⟨rfl, rfl, ?_, ?_⟩
    · rw [tailRun_marker]
      simp
    · intro d hd
      obtain ⟨q1, q2, q3, ⟨j, hj⟩, q5, q6, q7⟩ := tail_facts.2.2.2.2 _ d (Or.inr rfl) hd
      refine ⟨q1, q2, q3, ?_, ?_, ?_⟩
      · rw [q5]
        simp only [writes_append, writes_pauses]
        simp [writes]
      · rw [q6]
        simp only [writes_append, writes_pauses]
        simp [writes, STDOUT_FILENO, STDERR_FILENO]
      · rw [q7]
        simp only [List.filter_append, filter_pauses]
        simp [Event.isOpen, Event.isSetns]
  · intro w n u m fd1 v1 fd2 v2 hu hm h0 h1 h3 h4
    have hx := exec_both_parked (w.withWakeups n) u m fd1 v1 fd2 v2 hu hm h0 h1 h3 h4
    obtain ⟨-, f2, f3, -, f5⟩ := withWakeups_fields w n
    rw [f2, f3, f5] at hx
    rw [hx]
    refine ⟨rfl, rfl, ?_, ?_⟩
    · rw [tailRun_marker]
      simp
    · intro d hd
      obtain ⟨q1, q2, q3, ⟨j, hj⟩, q5, q6, q7⟩ := tail_facts.2.2.2.2 _ d (Or.inr rfl) hd
      refine ⟨q1, q2, q3, ?_, ?_, ?_⟩
      · rw [q5]
        simp only [writes_append, writes_pauses]
        simp [writes]
      · rw [q6]
        simp only [writes_append, writes_pauses]
        simp [writes, STDOUT_FILENO, STDERR_FILENO]
      · rw [q7]
        simp only [List.filter_append, filter_pauses]
        simp [Event.isOpen, Event.isSetns]

/-- C10 on a run with only the mount reference set, every call succeeding and
two returns of `pause`: the run of `gosandbox` is parked with one marker and
three `pause` calls, and a further return of `pause` leaves it parked. -/
theorem C10_parked_forever_witness :
    (exec ((calmWorld none (some "/proc/1234/ns/mnt") 0).withWakeups 2)).outcome
      = Outcome.Parked ∧
    (exec ((calmWorld none (some "/proc/1234/ns/mnt") 0).withWakeups 2)).trace =
      [Event.open NsRef.mnt "/proc/1234/ns/mnt" O_RDONLY 3, Event.setns 3 CLONE_NEWNS 0,
        Event.close 3 0, Event.dprintf STDOUT_FILENO "OK\n",
        Event.pause, Event.pause, Event.pause] ∧
    Config.parked ⟨Ctl.atLoop,
      ⟨EINTR, 3, (exec ((calmWorld none (some "/proc/1234/ns/mnt") 0).withWakeups 2)).trace⟩⟩ ∧
    writes STDOUT_FILENO
      (exec ((calmWorld none (some "/proc/1234/ns/mnt") 0).withWakeups 2)).trace = ["OK\n"] :=
  have h := C10_parked_forever.2.1 (calmWorld none (some "/proc/1234/ns/mnt") 0) 2
    "/proc/1234/ns/mnt" 3 0 (Or.inl (by decide)) ⟨by decide, by decide⟩
    (by decide) (by decide)
  have g := h.2.2.2 ⟨Ctl.atLoop,
      ⟨EINTR, 3, (exec ((calmWorld none (some "/proc/1234/ns/mnt") 0).withWakeups 2)).trace⟩⟩
    (Relation.ReflTransGen.single rfl)
  ⟨h.1, h.2.1, g.1, g.2.2.2.1⟩

end Gomntns
